import Mathlib

/-!
# Physics simulator: a shallow embedding of `physics_models.cpp`

The four concrete integrators (`FallingBodyWithDrag`, `SpringOscillator`,
`ConstantAcceleration`, `ChargeInField`), their common operations and the
factory `createModel` are embedded as Lean definitions.

* A C++ `double` is read as an exact rational number (`ℚ`): rounding, infinities
  and NaN are outside the model.  Division by a zero mass, which the C++ code
  leaves to IEEE arithmetic, is therefore only meaningful here when the mass is
  non-zero.
* A `std::vector` is a `List`; `push_back` appends at the end.
* A member function that mutates `*this` becomes a function returning the new
  object state.
* The file system is an input of `loadFromFile` (`file_io.cpp`), and option 6 of
  the menu (`menu.cpp`) is a function on the globals of the session.
* A `while` loop is run with a fuel bound: `whileLoop` returns `none` when the
  fuel is used up before the loop exits, and `some s` with the state at exit
  otherwise.  The result never depends on how much spare fuel there was
  (`whileLoop_mono`).
-/

namespace Simulation

/-! ## Data model (`physics_models.h`) -/

/-- One sampled instant of a trajectory: `struct SimulationResult`. -/
structure SimulationResult where
  time : ℚ
  position : ℚ
  velocity : ℚ
  other_param : ℚ
  deriving DecidableEq, Repr

/-- State of a `FallingBodyWithDrag` object: its private members. -/
structure FallingBodyWithDrag where
  mass : ℚ
  gravity : ℚ
  dragCoeff : ℚ
  height : ℚ
  results : List SimulationResult
  deriving DecidableEq, Repr

/-- State of a `SpringOscillator` object: its private members. -/
structure SpringOscillator where
  mass : ℚ
  stiffness : ℚ
  damping : ℚ
  amplitude : ℚ
  results : List SimulationResult
  deriving DecidableEq, Repr

/-- State of a `ConstantAcceleration` object: its private members. -/
structure ConstantAcceleration where
  initialPos : ℚ
  initialVel : ℚ
  acceleration : ℚ
  results : List SimulationResult
  deriving DecidableEq, Repr

/-- State of a `ChargeInField` object: its private members. -/
structure ChargeInField where
  charge : ℚ
  mass : ℚ
  eField : ℚ
  initialVel : ℚ
  results : List SimulationResult
  deriving DecidableEq, Repr

/-! ## Loops -/

/-- The local variables of an integration loop together with the object's
`results` vector, which the loop body extends. -/
structure LoopState where
  time : ℚ
  position : ℚ
  velocity : ℚ
  results : List SimulationResult
  deriving DecidableEq, Repr

/-- Runs `while (cond) { body; if (brk) break; }` from state `s` with at most
`fuel` evaluations of the loop condition.  The result is `none` when the fuel
runs out before the loop is left. -/
def whileLoop {σ : Type} (cond : σ → Bool) (body : σ → σ) (brk : σ → Bool) :
    Nat → σ → Option σ
  | 0, _ => none
  | fuel + 1, s =>
      if cond s then
        if brk (body s) then some (body s) else whileLoop cond body brk fuel (body s)
      else some s

/-- A loop body without a `break` statement. -/
def noBreak {σ : Type} : σ → Bool := fun _ => false

/-! ## FallingBodyWithDrag -/

/-- Constructor `FallingBodyWithDrag::FallingBodyWithDrag()`. -/
def FallingBodyWithDrag.new : FallingBodyWithDrag :=
  { mass := 1.0, gravity := 9.81, dragCoeff := 0.1, height := 100.0, results := [] }

/-- Member function `FallingBodyWithDrag::setParameters`. -/
def FallingBodyWithDrag.setParameters (m : FallingBodyWithDrag) (params : List ℚ) :
    FallingBodyWithDrag :=
  if h : params.length ≥ 4 then
    { m with mass := params[0], gravity := params[1], dragCoeff := params[2],
             height := params[3] }
  else m

/-- Member function `FallingBodyWithDrag::clearResults`. -/
def FallingBodyWithDrag.clearResults (m : FallingBodyWithDrag) : FallingBodyWithDrag :=
  { m with results := [] }

/-- Member function `FallingBodyWithDrag::getResults`. -/
def FallingBodyWithDrag.getResults (m : FallingBodyWithDrag) : List SimulationResult :=
  m.results

/-- Member function `FallingBodyWithDrag::getParamNames`. -/
def FallingBodyWithDrag.getParamNames (_m : FallingBodyWithDrag) : List String :=
  ["Масса (кг)", "Ускорение своб. падения (м/с²)",
   "Коэф. сопротивления", "Начальная высота (м)"]

/-- Loop condition of `FallingBodyWithDrag::simulate`:
`time <= totalTime && position >= 0.0`. -/
def FallingBodyWithDrag.loopCond (totalTime : ℚ) (s : LoopState) : Bool :=
  decide (s.time ≤ totalTime) && decide (s.position ≥ 0.0)

/-- Loop body of `FallingBodyWithDrag::simulate`, up to and including the
`push_back`.  For `mass = 0` the quotient is 0 here, where the C++ division gives
NaN or an infinity: what is stated about the computed values is stated for
`mass ≠ 0`. -/
def FallingBodyWithDrag.loopBody (m : FallingBodyWithDrag) (timeStep : ℚ)
    (s : LoopState) : LoopState :=
  let dragForce := 0.5 * m.dragCoeff * s.velocity * s.velocity
  let acceleration := m.gravity - dragForce / m.mass
  let velocity := s.velocity + acceleration * timeStep
  let position := s.position - velocity * timeStep
  let time := s.time + timeStep
  let res : SimulationResult :=
    { time := time, position := position, velocity := velocity,
      other_param := acceleration }
  { time := time, position := position, velocity := velocity,
    results := s.results ++ [res] }

/-- Test of the `break` that ends the loop body of
`FallingBodyWithDrag::simulate`: `position <= 0.0`. -/
def FallingBodyWithDrag.loopBreak (s : LoopState) : Bool :=
  decide (s.position ≤ 0.0)

/-- Member function `FallingBodyWithDrag::simulate`, with a fuel bound on the
loop. -/
def FallingBodyWithDrag.simulate (fuel : Nat) (m : FallingBodyWithDrag)
    (timeStep totalTime : ℚ) : Option FallingBodyWithDrag :=
  let m := m.clearResults
  (whileLoop (FallingBodyWithDrag.loopCond totalTime)
      (FallingBodyWithDrag.loopBody m timeStep) FallingBodyWithDrag.loopBreak fuel
      { time := 0.0, position := m.height, velocity := 0.0, results := m.results }).map
    fun s => { m with results := s.results }

/-! ## SpringOscillator -/

/-- Constructor `SpringOscillator::SpringOscillator()`. -/
def SpringOscillator.new : SpringOscillator :=
  { mass := 1.0, stiffness := 10.0, damping := 0.1, amplitude := 1.0, results := [] }

/-- Member function `SpringOscillator::setParameters`. -/
def SpringOscillator.setParameters (m : SpringOscillator) (params : List ℚ) :
    SpringOscillator :=
  if h : params.length ≥ 4 then
    { m with mass := params[0], stiffness := params[1], damping := params[2],
             amplitude := params[3] }
  else m

/-- Member function `SpringOscillator::clearResults`. -/
def SpringOscillator.clearResults (m : SpringOscillator) : SpringOscillator :=
  { m with results := [] }

/-- Member function `SpringOscillator::getResults`. -/
def SpringOscillator.getResults (m : SpringOscillator) : List SimulationResult :=
  m.results

/-- Member function `SpringOscillator::getParamNames`. -/
def SpringOscillator.getParamNames (_m : SpringOscillator) : List String :=
  ["Масса (кг)", "Жесткость пружины (Н/м)",
   "Коэф. затухания", "Начальная амплитуда (м)"]

/-- Loop condition shared by `SpringOscillator::simulate`,
`ConstantAcceleration::simulate` and `ChargeInField::simulate`:
`time <= totalTime`. -/
def timeCond (totalTime : ℚ) (s : LoopState) : Bool :=
  decide (s.time ≤ totalTime)

/-- Loop body of `SpringOscillator::simulate`.  For `mass = 0` the quotient is 0
here, where the C++ division gives NaN or an infinity. -/
def SpringOscillator.loopBody (m : SpringOscillator) (timeStep : ℚ)
    (s : LoopState) : LoopState :=
  let springForce := -m.stiffness * s.position
  let dampingForce := -m.damping * s.velocity
  let acceleration := (springForce + dampingForce) / m.mass
  let velocity := s.velocity + acceleration * timeStep
  let position := s.position + velocity * timeStep
  let time := s.time + timeStep
  let res : SimulationResult :=
    { time := time, position := position, velocity := velocity,
      other_param := acceleration }
  { time := time, position := position, velocity := velocity,
    results := s.results ++ [res] }

/-- Member function `SpringOscillator::simulate`, with a fuel bound on the
loop. -/
def SpringOscillator.simulate (fuel : Nat) (m : SpringOscillator)
    (timeStep totalTime : ℚ) : Option SpringOscillator :=
  let m := m.clearResults
  (whileLoop (timeCond totalTime) (SpringOscillator.loopBody m timeStep) noBreak fuel
      { time := 0.0, position := m.amplitude, velocity := 0.0, results := m.results }).map
    fun s => { m with results := s.results }

/-! ## ConstantAcceleration -/

/-- Constructor `ConstantAcceleration::ConstantAcceleration()`. -/
def ConstantAcceleration.new : ConstantAcceleration :=
  { initialPos := 0.0, initialVel := 0.0, acceleration := 1.0, results := [] }

/-- Member function `ConstantAcceleration::setParameters`. -/
def ConstantAcceleration.setParameters (m : ConstantAcceleration) (params : List ℚ) :
    ConstantAcceleration :=
  if h : params.length ≥ 3 then
    { m with initialPos := params[0], initialVel := params[1],
             acceleration := params[2] }
  else m

/-- Member function `ConstantAcceleration::clearResults`. -/
def ConstantAcceleration.clearResults (m : ConstantAcceleration) : ConstantAcceleration :=
  { m with results := [] }

/-- Member function `ConstantAcceleration::getResults`. -/
def ConstantAcceleration.getResults (m : ConstantAcceleration) : List SimulationResult :=
  m.results

/-- Member function `ConstantAcceleration::getParamNames`. -/
def ConstantAcceleration.getParamNames (_m : ConstantAcceleration) : List String :=
  ["Начальное положение (м)", "Начальная скорость (м/с)",
   "Ускорение (м/с²)"]

/-- Loop body of `ConstantAcceleration::simulate`.  The only local that lives
across iterations is `time`; `position` and `velocity` are declared inside the
body, so the fields of that name in the loop state are not used. -/
def ConstantAcceleration.loopBody (m : ConstantAcceleration) (timeStep : ℚ)
    (s : LoopState) : LoopState :=
  let position := m.initialPos + m.initialVel * s.time + 0.5 * m.acceleration * s.time * s.time
  let velocity := m.initialVel + m.acceleration * s.time
  let res : SimulationResult :=
    { time := s.time, position := position, velocity := velocity,
      other_param := m.acceleration }
  { s with time := s.time + timeStep, results := s.results ++ [res] }

/-- Member function `ConstantAcceleration::simulate`, with a fuel bound on the
loop. -/
def ConstantAcceleration.simulate (fuel : Nat) (m : ConstantAcceleration)
    (timeStep totalTime : ℚ) : Option ConstantAcceleration :=
  let m := m.clearResults
  (whileLoop (timeCond totalTime) (ConstantAcceleration.loopBody m timeStep) noBreak fuel
      { time := 0.0, position := 0, velocity := 0, results := m.results }).map
    fun s => { m with results := s.results }

/-! ## ChargeInField -/

/-- Constructor `ChargeInField::ChargeInField()`. -/
def ChargeInField.new : ChargeInField :=
  { charge := 1.0, mass := 1.0, eField := 1.0, initialVel := 0.0, results := [] }

/-- Member function `ChargeInField::setParameters`. -/
def ChargeInField.setParameters (m : ChargeInField) (params : List ℚ) :
    ChargeInField :=
  if h : params.length ≥ 4 then
    { m with charge := params[0], mass := params[1], eField := params[2],
             initialVel := params[3] }
  else m

/-- Member function `ChargeInField::clearResults`. -/
def ChargeInField.clearResults (m : ChargeInField) : ChargeInField :=
  { m with results := [] }

/-- Member function `ChargeInField::getResults`. -/
def ChargeInField.getResults (m : ChargeInField) : List SimulationResult :=
  m.results

/-- Member function `ChargeInField::getParamNames`. -/
def ChargeInField.getParamNames (_m : ChargeInField) : List String :=
  ["Заряд (Кл)", "Масса (кг)", "Напряженность поля (Н/Кл)",
   "Начальная скорость (м/с)"]

/-- Loop body of `ChargeInField::simulate`.  For `mass = 0` the quotient is 0
here, where the C++ division gives NaN or an infinity. -/
def ChargeInField.loopBody (m : ChargeInField) (timeStep : ℚ)
    (s : LoopState) : LoopState :=
  let force := m.charge * m.eField
  let acceleration := force / m.mass
  let velocity := s.velocity + acceleration * timeStep
  let position := s.position + velocity * timeStep
  let time := s.time + timeStep
  let res : SimulationResult :=
    { time := time, position := position, velocity := velocity,
      other_param := acceleration }
  { time := time, position := position, velocity := velocity,
    results := s.results ++ [res] }

/-- Member function `ChargeInField::simulate`, with a fuel bound on the loop. -/
def ChargeInField.simulate (fuel : Nat) (m : ChargeInField)
    (timeStep totalTime : ℚ) : Option ChargeInField :=
  let m := m.clearResults
  (whileLoop (timeCond totalTime) (ChargeInField.loopBody m timeStep) noBreak fuel
      { time := 0.0, position := 0.0, velocity := m.initialVel, results := m.results }).map
    fun s => { m with results := s.results }

/-! ## Polymorphism and the factory -/

/-- An object reachable through a `PhysicsModel*`: one of the four concrete
classes deriving from `PhysicsModel`. -/
inductive PhysicsModel where
  | fallingBodyWithDrag (m : FallingBodyWithDrag)
  | springOscillator (m : SpringOscillator)
  | constantAcceleration (m : ConstantAcceleration)
  | chargeInField (m : ChargeInField)
  deriving DecidableEq, Repr

/-- Virtual call `p->setParameters(params)`. -/
def PhysicsModel.setParameters (p : PhysicsModel) (params : List ℚ) : PhysicsModel :=
  match p with
  | .fallingBodyWithDrag m => .fallingBodyWithDrag (m.setParameters params)
  | .springOscillator m => .springOscillator (m.setParameters params)
  | .constantAcceleration m => .constantAcceleration (m.setParameters params)
  | .chargeInField m => .chargeInField (m.setParameters params)

/-- Virtual call `p->simulate(timeStep, totalTime)`, with a fuel bound. -/
def PhysicsModel.simulate (fuel : Nat) (p : PhysicsModel) (timeStep totalTime : ℚ) :
    Option PhysicsModel :=
  match p with
  | .fallingBodyWithDrag m => (m.simulate fuel timeStep totalTime).map .fallingBodyWithDrag
  | .springOscillator m => (m.simulate fuel timeStep totalTime).map .springOscillator
  | .constantAcceleration m => (m.simulate fuel timeStep totalTime).map .constantAcceleration
  | .chargeInField m => (m.simulate fuel timeStep totalTime).map .chargeInField

/-- Virtual call `p->getResults()`. -/
def PhysicsModel.getResults (p : PhysicsModel) : List SimulationResult :=
  match p with
  | .fallingBodyWithDrag m => m.getResults
  | .springOscillator m => m.getResults
  | .constantAcceleration m => m.getResults
  | .chargeInField m => m.getResults

/-- Virtual call `p->clearResults()`. -/
def PhysicsModel.clearResults (p : PhysicsModel) : PhysicsModel :=
  match p with
  | .fallingBodyWithDrag m => .fallingBodyWithDrag m.clearResults
  | .springOscillator m => .springOscillator m.clearResults
  | .constantAcceleration m => .constantAcceleration m.clearResults
  | .chargeInField m => .chargeInField m.clearResults

/-- Virtual call `p->getParamNames()`. -/
def PhysicsModel.getParamNames (p : PhysicsModel) : List String :=
  match p with
  | .fallingBodyWithDrag m => m.getParamNames
  | .springOscillator m => m.getParamNames
  | .constantAcceleration m => m.getParamNames
  | .chargeInField m => m.getParamNames

/-- Factory `createModel`; the null pointer is `none`. -/
def createModel (modelType : Int) : Option PhysicsModel :=
  match modelType with
  | 1 => some (.fallingBodyWithDrag FallingBodyWithDrag.new)
  | 2 => some (.springOscillator SpringOscillator.new)
  | 3 => some (.constantAcceleration ConstantAcceleration.new)
  | 4 => some (.chargeInField ChargeInField.new)
  | _ => none

/-! ## File loading and the session (`file_io.cpp`, `menu.cpp`) -/

/-- Function `loadFromFile` of `file_io.cpp`, with the file system taken as an
input: `file` is `none` when the file cannot be opened, and otherwise the
records that the extraction loop reads after the header line.  The value is the
returned flag together with the new content of the reference parameter
`results`. -/
def loadFromFile (file : Option (List SimulationResult))
    (results : List SimulationResult) : Bool × List SimulationResult :=
  match file with
  | none => (false, results)
  | some parsed => (!parsed.isEmpty, parsed)

/-- The globals of `menu.cpp`: `currentModel` (`none` for the empty pointer),
`hasModel` and `hasResults`. -/
structure Session where
  currentModel : Option PhysicsModel
  hasModel : Bool
  hasResults : Bool
  deriving DecidableEq, Repr

/-- The result sequence that options 4 (display) and 5 (save) of `runMainMenu`
work on: `currentModel->getResults()`, read only when `hasResults` is set. -/
def Session.activeResults (s : Session) : Option (List SimulationResult) :=
  if s.hasResults then s.currentModel.map PhysicsModel.getResults else none

/-- Option 6 of `runMainMenu` (load results from a file), from the state `s` of
the globals; `file` is what `loadFromFile` finds under the name typed in, and
`fuel` bounds the loop of the `simulate` call. -/
def runMainMenuCase6 (fuel : Nat) (s : Session) (file : Option (List SimulationResult)) :
    Option Session :=
  let loadedResults : List SimulationResult := []
  if (loadFromFile file loadedResults).1 then
    (ConstantAcceleration.new.simulate fuel 0.1 1.0).map fun m =>
      { currentModel := some (.constantAcceleration m), hasModel := true,
        hasResults := true }
  else some s

/-! ## General facts about loops -/

/-- Spare fuel does not change the outcome of a loop that has exited. -/
theorem whileLoop_mono {σ : Type} (cond : σ → Bool) (body : σ → σ) (brk : σ → Bool)
    (n : Nat) : ∀ (k : Nat) (s r : σ),
      whileLoop cond body brk n s = some r → whileLoop cond body brk (n + k) s = some r := by
  induction n with
  | zero => intro k s r h; simp [whileLoop] at h
  | succ n ih =>
    intro k s r h
    rw [Nat.add_right_comm]
    simp only [whileLoop] at h ⊢
    split at h
    · rw [if_pos ‹_›]
      split at h
      · rw [if_pos ‹_›]; exact h
      · rw [if_neg ‹_›]; exact ih k _ _ h
    · rw [if_neg ‹_›]; exact h

/-- Two runs of the same loop that both exit, exit in the same state. -/
theorem whileLoop_unique {σ : Type} (cond : σ → Bool) (body : σ → σ) (brk : σ → Bool)
    (n k : Nat) (s a b : σ) (ha : whileLoop cond body brk n s = some a)
    (hb : whileLoop cond body brk k s = some b) : a = b := by
  have h1 := whileLoop_mono cond body brk n k s a ha
  have h2 := whileLoop_mono cond body brk k n s b hb
  rw [Nat.add_comm] at h2
  rw [h1] at h2
  exact Option.some.inj h2

/-- One evaluation of the loop condition. -/
theorem whileLoop_succ {σ : Type} (cond : σ → Bool) (body : σ → σ) (brk : σ → Bool)
    (fuel : Nat) (s : σ) :
    whileLoop cond body brk (fuel + 1) s
      = if cond s then
          if brk (body s) then some (body s) else whileLoop cond body brk fuel (body s)
        else some s := rfl

/-- A loop without `break` whose condition holds before each of the first `k`
rounds and fails after them exits after exactly `k` rounds of its body. -/
theorem whileLoop_noBreak_iterate {σ : Type} (cond : σ → Bool) (body : σ → σ) (k : Nat) :
    ∀ (extra : Nat) (s : σ), (∀ j, j < k → cond (body^[j] s) = true) →
      cond (body^[k] s) = false →
      whileLoop cond body noBreak (k + 1 + extra) s = some (body^[k] s) := by
  induction k with
  | zero =>
    intro extra s _ hk
    rw [Nat.zero_add, Nat.add_comm]
    simp only [Function.iterate_zero, id_eq] at hk
    simp [whileLoop, hk]
  | succ k ih =>
    intro extra s hlt hk
    have h0 : cond s = true := hlt 0 (Nat.succ_pos k)
    rw [Nat.add_right_comm (k + 1) 1 extra, whileLoop_succ, if_pos h0,
      if_neg (by simp [noBreak]), Function.iterate_succ_apply]
    exact ih extra (body s) (fun j hj => hlt (j + 1) (Nat.succ_lt_succ hj)) hk

/-- A body that adds `dt` to `time` has added `k * dt` after `k` rounds. -/
theorem iterate_time (body : LoopState → LoopState) (dt : ℚ)
    (hbody : ∀ s, (body s).time = s.time + dt) (s : LoopState) (k : Nat) :
    (body^[k] s).time = s.time + k * dt := by
  induction k with
  | zero => simp
  | succ k ih =>
    rw [Function.iterate_succ_apply', hbody, ih]
    push_cast
    ring

/-- A body that pushes one record has pushed `k` records after `k` rounds. -/
theorem iterate_results_length (body : LoopState → LoopState)
    (hbody : ∀ s, (body s).results.length = s.results.length + 1) (s : LoopState) (k : Nat) :
    (body^[k] s).results.length = s.results.length + k := by
  induction k with
  | zero => simp
  | succ k ih =>
    rw [Function.iterate_succ_apply', hbody, ih]
    rfl

/-- The loop `while (time <= totalTime) { ...; time += dt; }` started at time 0
with `dt > 0` exits after `⌊totalTime / dt⌋ + 1` rounds when `totalTime ≥ 0`, and
at once when `totalTime < 0`. -/
theorem timeLoop_exit (body : LoopState → LoopState) (dt T : ℚ) (hdt : 0 < dt)
    (hbody : ∀ s, (body s).time = s.time + dt) (s : LoopState) (hs : s.time = 0)
    (extra : Nat) :
    whileLoop (timeCond T) body noBreak (⌊T / dt⌋₊ + 2 + extra) s
      = some (body^[if 0 ≤ T then ⌊T / dt⌋₊ + 1 else 0] s) := by
  by_cases hT : 0 ≤ T
  · rw [if_pos hT]
    apply whileLoop_noBreak_iterate
    · intro j hj
      rw [timeCond, decide_eq_true_eq, iterate_time body dt hbody, hs, zero_add]
      have h1 : (j : ℚ) ≤ ⌊T / dt⌋₊ := by exact_mod_cast Nat.lt_succ_iff.mp hj
      have h2 : (⌊T / dt⌋₊ : ℚ) ≤ T / dt := Nat.floor_le (div_nonneg hT hdt.le)
      exact (le_div_iff₀ hdt).mp (h1.trans h2)
    · rw [timeCond, decide_eq_false_iff_not, iterate_time body dt hbody, hs, zero_add, not_le]
      have h2 : T / dt < ⌊T / dt⌋₊ + 1 := Nat.lt_floor_add_one _
      have := (div_lt_iff₀ hdt).mp h2
      push_cast
      exact this
  · rw [if_neg hT]
    have := whileLoop_noBreak_iterate (timeCond T) body 0 (⌊T / dt⌋₊ + 1 + extra) s
      (fun j hj => absurd hj (Nat.not_lt_zero j))
      (by simp only [Function.iterate_zero, id_eq, timeCond, hs]; exact decide_eq_false hT)
    rw [← this]
    congr 1
    omega

/-! ## Parameters, results and the factory -/

/-- C1: for each of the four models, `setParameters` with a list shorter than
the model's arity (4 for FallingBodyWithDrag, SpringOscillator and ChargeInField,
3 for ConstantAcceleration) returns the object unchanged, parameters and result
sequence alike, so that a following `simulate` behaves exactly as it would have
before the call. -/
theorem setParameters_short_list_ignored (p : PhysicsModel) (params : List ℚ)
    (h : params.length <
      (match p with
        | .fallingBodyWithDrag _ => 4
        | .springOscillator _ => 4
        | .constantAcceleration _ => 3
        | .chargeInField _ => 4)) :
    p.setParameters params = p ∧
      ∀ (fuel : Nat) (timeStep totalTime : ℚ),
        (p.setParameters params).simulate fuel timeStep totalTime
          = p.simulate fuel timeStep totalTime := by
  have key : p.setParameters params = p := by
    cases p <;>
      simp only [PhysicsModel.setParameters, FallingBodyWithDrag.setParameters,
        SpringOscillator.setParameters, ConstantAcceleration.setParameters,
        ChargeInField.setParameters] <;>
      rw [dif_neg (by simpa using h)]
  exact ⟨key, fun fuel dt T => by rw [key]⟩

/-- Witness for C1: a two-element list given to a ConstantAcceleration (arity 3)
that already holds a record. -/
theorem setParameters_short_list_ignored_witness :
    ([8, 9] : List ℚ).length < 3 ∧
    ((PhysicsModel.constantAcceleration ⟨1, 2, 3, [⟨0, 1, 2, 3⟩]⟩).setParameters [8, 9]
        = PhysicsModel.constantAcceleration ⟨1, 2, 3, [⟨0, 1, 2, 3⟩]⟩ ∧
      ∀ (fuel : Nat) (timeStep totalTime : ℚ),
        ((PhysicsModel.constantAcceleration ⟨1, 2, 3, [⟨0, 1, 2, 3⟩]⟩).setParameters
            [8, 9]).simulate fuel timeStep totalTime
          = (PhysicsModel.constantAcceleration ⟨1, 2, 3, [⟨0, 1, 2, 3⟩]⟩).simulate
              fuel timeStep totalTime) :=
  ⟨by decide,
   setParameters_short_list_ignored (.constantAcceleration ⟨1, 2, 3, [⟨0, 1, 2, 3⟩]⟩) [8, 9]
      (by decide)⟩

/-- C2: for each of the four models with arity N (the length of
`getParamNames()`: 4, 4, 3, 4), `setParameters` with a list of at least N values
overwrites the N parameters with the first N values, in the order of the labels
of `getParamNames()` (mass, gravity, drag coefficient, height; mass, stiffness,
damping, amplitude; initial position, initial velocity, acceleration; charge,
mass, field strength, initial velocity), does not look at the values beyond the
N-th, and keeps the result sequence. -/
theorem setParameters_overwrites_in_order :
    (∀ (m : FallingBodyWithDrag) (params : List ℚ) (h : 4 ≤ params.length),
        m.setParameters params
            = { mass := params[0], gravity := params[1], dragCoeff := params[2],
                height := params[3], results := m.results } ∧
          m.setParameters params = m.setParameters (params.take 4) ∧
          m.getParamNames = ["Масса (кг)", "Ускорение своб. падения (м/с²)",
            "Коэф. сопротивления", "Начальная высота (м)"] ∧
          m.getParamNames.length = 4) ∧
    (∀ (m : SpringOscillator) (params : List ℚ) (h : 4 ≤ params.length),
        m.setParameters params
            = { mass := params[0], stiffness := params[1], damping := params[2],
                amplitude := params[3], results := m.results } ∧
          m.setParameters params = m.setParameters (params.take 4) ∧
          m.getParamNames = ["Масса (кг)", "Жесткость пружины (Н/м)",
            "Коэф. затухания", "Начальная амплитуда (м)"] ∧
          m.getParamNames.length = 4) ∧
    (∀ (m : ConstantAcceleration) (params : List ℚ) (h : 3 ≤ params.length),
        m.setParameters params
            = { initialPos := params[0], initialVel := params[1],
                acceleration := params[2], results := m.results } ∧
          m.setParameters params = m.setParameters (params.take 3) ∧
          m.getParamNames = ["Начальное положение (м)", "Начальная скорость (м/с)",
            "Ускорение (м/с²)"] ∧
          m.getParamNames.length = 3) ∧
    (∀ (m : ChargeInField) (params : List ℚ) (h : 4 ≤ params.length),
        m.setParameters params
            = { charge := params[0], mass := params[1], eField := params[2],
                initialVel := params[3], results := m.results } ∧
          m.setParameters params = m.setParameters (params.take 4) ∧
          m.getParamNames = ["Заряд (Кл)", "Масса (кг)", "Напряженность поля (Н/Кл)",
            "Начальная скорость (м/с)"] ∧
          m.getParamNames.length = 4) := by
  refine ⟨?_, ?_, ?_, ?_⟩
  · intro m params h
    have h' : 4 ≤ (params.take 4).length := by simp [h]
    exact ⟨by simp [FallingBodyWithDrag.setParameters, h],
      by simp [FallingBodyWithDrag.setParameters, h, List.getElem_take], rfl, rfl⟩
  · intro m params h
    have h' : 4 ≤ (params.take 4).length := by simp [h]
    exact ⟨by simp [SpringOscillator.setParameters, h],
      by simp [SpringOscillator.setParameters, h, List.getElem_take], rfl, rfl⟩
  · intro m params h
    have h' : 3 ≤ (params.take 3).length := by simp [h]
    exact ⟨by simp [ConstantAcceleration.setParameters, h],
      by simp [ConstantAcceleration.setParameters, h, List.getElem_take], rfl, rfl⟩
  · intro m params h
    have h' : 4 ≤ (params.take 4).length := by simp [h]
    exact ⟨by simp [ChargeInField.setParameters, h],
      by simp [ChargeInField.setParameters, h, List.getElem_take], rfl, rfl⟩

/-- Witness for C2: five values given to a FallingBodyWithDrag holding one
record; the fifth value is dropped and the record is kept. -/
theorem setParameters_overwrites_in_order_witness :
    4 ≤ ([5, 6, 7, 8, 9] : List ℚ).length ∧
    FallingBodyWithDrag.setParameters ⟨1, 2, 3, 4, [⟨0, 1, 2, 3⟩]⟩ [5, 6, 7, 8, 9]
        = ⟨5, 6, 7, 8, [⟨0, 1, 2, 3⟩]⟩ ∧
    FallingBodyWithDrag.setParameters ⟨1, 2, 3, 4, [⟨0, 1, 2, 3⟩]⟩ [5, 6, 7, 8, 9]
        = FallingBodyWithDrag.setParameters ⟨1, 2, 3, 4, [⟨0, 1, 2, 3⟩]⟩
            (([5, 6, 7, 8, 9] : List ℚ).take 4) :=
  ⟨by decide,
   (setParameters_overwrites_in_order.1 ⟨1, 2, 3, 4, [⟨0, 1, 2, 3⟩]⟩ [5, 6, 7, 8, 9]
      (by decide)).1,
   (setParameters_overwrites_in_order.1 ⟨1, 2, 3, 4, [⟨0, 1, 2, 3⟩]⟩ [5, 6, 7, 8, 9]
      (by decide)).2.1⟩

/-- The state in which a loop exits, seen through any function, does not depend
on the fuel. -/
theorem map_whileLoop_unique {σ τ : Type} (cond : σ → Bool) (body : σ → σ)
    (brk : σ → Bool) (g : σ → τ) (n k : Nat) (s : σ) (a b : τ)
    (ha : (whileLoop cond body brk n s).map g = some a)
    (hb : (whileLoop cond body brk k s).map g = some b) : a = b := by
  rw [Option.map_eq_some'] at ha hb
  obtain ⟨x, hx, rfl⟩ := ha
  obtain ⟨y, hy, rfl⟩ := hb
  rw [whileLoop_unique cond body brk n k s x y hx hy]

/-- C3: for each of the four models the outcome of `simulate(timeStep, totalTime)`
depends on the parameters and on `(timeStep, totalTime)` only.  Two objects with
the same parameters and arbitrary prior result sequences `r₁`, `r₂` behave alike
for every fuel, and whenever both runs return they return the same object (so the
result does not depend on the fuel either); `simulate` leaves the parameters as
they were, and running it a second time on its own output gives that output
again, not an appended sequence. -/
theorem simulate_depends_on_parameters_only :
    (∀ (m : FallingBodyWithDrag) (r₁ r₂ : List SimulationResult) (timeStep totalTime : ℚ),
      (∀ fuel : Nat,
        FallingBodyWithDrag.simulate fuel { m with results := r₁ } timeStep totalTime
          = FallingBodyWithDrag.simulate fuel { m with results := r₂ } timeStep totalTime) ∧
      (∀ (f₁ f₂ : Nat) (a b : FallingBodyWithDrag),
        FallingBodyWithDrag.simulate f₁ { m with results := r₁ } timeStep totalTime = some a →
        FallingBodyWithDrag.simulate f₂ { m with results := r₂ } timeStep totalTime = some b →
        a = b) ∧
      (∀ (fuel : Nat) (a : FallingBodyWithDrag),
        m.simulate fuel timeStep totalTime = some a →
        (a.mass = m.mass ∧ a.gravity = m.gravity ∧ a.dragCoeff = m.dragCoeff ∧ a.height = m.height) ∧
        a.simulate fuel timeStep totalTime = some a)) ∧
    (∀ (m : SpringOscillator) (r₁ r₂ : List SimulationResult) (timeStep totalTime : ℚ),
      (∀ fuel : Nat,
        SpringOscillator.simulate fuel { m with results := r₁ } timeStep totalTime
          = SpringOscillator.simulate fuel { m with results := r₂ } timeStep totalTime) ∧
      (∀ (f₁ f₂ : Nat) (a b : SpringOscillator),
        SpringOscillator.simulate f₁ { m with results := r₁ } timeStep totalTime = some a →
        SpringOscillator.simulate f₂ { m with results := r₂ } timeStep totalTime = some b →
        a = b) ∧
      (∀ (fuel : Nat) (a : SpringOscillator),
        m.simulate fuel timeStep totalTime = some a →
        (a.mass = m.mass ∧ a.stiffness = m.stiffness ∧ a.damping = m.damping ∧ a.amplitude = m.amplitude) ∧
        a.simulate fuel timeStep totalTime = some a)) ∧
    (∀ (m : ConstantAcceleration) (r₁ r₂ : List SimulationResult) (timeStep totalTime : ℚ),
      (∀ fuel : Nat,
        ConstantAcceleration.simulate fuel { m with results := r₁ } timeStep totalTime
          = ConstantAcceleration.simulate fuel { m with results := r₂ } timeStep totalTime) ∧
      (∀ (f₁ f₂ : Nat) (a b : ConstantAcceleration),
        ConstantAcceleration.simulate f₁ { m with results := r₁ } timeStep totalTime = some a →
        ConstantAcceleration.simulate f₂ { m with results := r₂ } timeStep totalTime = some b →
        a = b) ∧
      (∀ (fuel : Nat) (a : ConstantAcceleration),
        m.simulate fuel timeStep totalTime = some a →
        (a.initialPos = m.initialPos ∧ a.initialVel = m.initialVel ∧ a.acceleration = m.acceleration) ∧
        a.simulate fuel timeStep totalTime = some a)) ∧
    (∀ (m : ChargeInField) (r₁ r₂ : List SimulationResult) (timeStep totalTime : ℚ),
      (∀ fuel : Nat,
        ChargeInField.simulate fuel { m with results := r₁ } timeStep totalTime
          = ChargeInField.simulate fuel { m with results := r₂ } timeStep totalTime) ∧
      (∀ (f₁ f₂ : Nat) (a b : ChargeInField),
        ChargeInField.simulate f₁ { m with results := r₁ } timeStep totalTime = some a →
        ChargeInField.simulate f₂ { m with results := r₂ } timeStep totalTime = some b →
        a = b) ∧
      (∀ (fuel : Nat) (a : ChargeInField),
        m.simulate fuel timeStep totalTime = some a →
        (a.charge = m.charge ∧ a.mass = m.mass ∧ a.eField = m.eField ∧ a.initialVel = m.initialVel) ∧
        a.simulate fuel timeStep totalTime = some a)) := by
  refine ⟨?_, ?_, ?_, ?_⟩
  · intro m r₁ r₂ dt T
    refine ⟨fun _ => rfl, ?_, ?_⟩
    · intro f₁ f₂ a b ha hb
      exact map_whileLoop_unique _ _ _ _ f₁ f₂ _ a b ha hb
    · intro fuel a ha
      have ha' := ha
      simp only [FallingBodyWithDrag.simulate, Option.map_eq_some'] at ha'
      obtain ⟨x, _, rfl⟩ := ha'
      exact ⟨⟨rfl, rfl, rfl, rfl⟩, ha⟩
  · intro m r₁ r₂ dt T
    refine ⟨fun _ => rfl, ?_, ?_⟩
    · intro f₁ f₂ a b ha hb
      exact map_whileLoop_unique _ _ _ _ f₁ f₂ _ a b ha hb
    · intro fuel a ha
      have ha' := ha
      simp only [SpringOscillator.simulate, Option.map_eq_some'] at ha'
      obtain ⟨x, _, rfl⟩ := ha'
      exact ⟨⟨rfl, rfl, rfl, rfl⟩, ha⟩
  · intro m r₁ r₂ dt T
    refine ⟨fun _ => rfl, ?_, ?_⟩
    · intro f₁ f₂ a b ha hb
      exact map_whileLoop_unique _ _ _ _ f₁ f₂ _ a b ha hb
    · intro fuel a ha
      have ha' := ha
      simp only [ConstantAcceleration.simulate, Option.map_eq_some'] at ha'
      obtain ⟨x, _, rfl⟩ := ha'
      exact ⟨⟨rfl, rfl, rfl⟩, ha⟩
  · intro m r₁ r₂ dt T
    refine ⟨fun _ => rfl, ?_, ?_⟩
    · intro f₁ f₂ a b ha hb
      exact map_whileLoop_unique _ _ _ _ f₁ f₂ _ a b ha hb
    · intro fuel a ha
      have ha' := ha
      simp only [ChargeInField.simulate, Option.map_eq_some'] at ha'
      obtain ⟨x, _, rfl⟩ := ha'
      exact ⟨⟨rfl, rfl, rfl, rfl⟩, ha⟩

/-- Witness for C3: a ConstantAcceleration object that already holds a record
is simulated with step 1 up to time 3; the old record is gone, the parameters
are kept and a second run reproduces the four records. -/
theorem simulate_depends_on_parameters_only_witness :
    ConstantAcceleration.simulate 10 ⟨0, 0, 2, [⟨7, 7, 7, 7⟩]⟩ 1 3
        = some ⟨0, 0, 2, [⟨0, 0, 0, 2⟩, ⟨1, 1, 2, 2⟩, ⟨2, 4, 4, 2⟩, ⟨3, 9, 6, 2⟩]⟩ ∧
      ((0 : ℚ) = 0 ∧ (0 : ℚ) = 0 ∧ (2 : ℚ) = 2) ∧
      ConstantAcceleration.simulate 10
          ⟨0, 0, 2, [⟨0, 0, 0, 2⟩, ⟨1, 1, 2, 2⟩, ⟨2, 4, 4, 2⟩, ⟨3, 9, 6, 2⟩]⟩ 1 3
        = some ⟨0, 0, 2, [⟨0, 0, 0, 2⟩, ⟨1, 1, 2, 2⟩, ⟨2, 4, 4, 2⟩, ⟨3, 9, 6, 2⟩]⟩ :=
  ⟨by decide!,
   (simulate_depends_on_parameters_only.2.2.1 ⟨0, 0, 2, [⟨7, 7, 7, 7⟩]⟩ [] [] 1 3).2.2 10
      ⟨0, 0, 2, [⟨0, 0, 0, 2⟩, ⟨1, 1, 2, 2⟩, ⟨2, 4, 4, 2⟩, ⟨3, 9, 6, 2⟩]⟩ (by decide!)⟩

/-- C4: for each of the four models, `clearResults` gives an object whose
`getResults()` has length zero and whose parameters are those it had, and
clearing twice is the same as clearing once. -/
theorem clearResults_empties_and_is_idempotent :
    (∀ m : FallingBodyWithDrag,
      m.clearResults.getResults.length = 0 ∧
      (m.clearResults.mass = m.mass ∧ m.clearResults.gravity = m.gravity ∧ m.clearResults.dragCoeff = m.dragCoeff ∧ m.clearResults.height = m.height) ∧
      m.clearResults.clearResults = m.clearResults) ∧
    (∀ m : SpringOscillator,
      m.clearResults.getResults.length = 0 ∧
      (m.clearResults.mass = m.mass ∧ m.clearResults.stiffness = m.stiffness ∧ m.clearResults.damping = m.damping ∧ m.clearResults.amplitude = m.amplitude) ∧
      m.clearResults.clearResults = m.clearResults) ∧
    (∀ m : ConstantAcceleration,
      m.clearResults.getResults.length = 0 ∧
      (m.clearResults.initialPos = m.initialPos ∧ m.clearResults.initialVel = m.initialVel ∧ m.clearResults.acceleration = m.acceleration) ∧
      m.clearResults.clearResults = m.clearResults) ∧
    (∀ m : ChargeInField,
      m.clearResults.getResults.length = 0 ∧
      (m.clearResults.charge = m.charge ∧ m.clearResults.mass = m.mass ∧ m.clearResults.eField = m.eField ∧ m.clearResults.initialVel = m.initialVel) ∧
      m.clearResults.clearResults = m.clearResults) := by
  refine ⟨?_, ?_, ?_, ?_⟩ <;> intro m <;> exact ⟨rfl, by simp [FallingBodyWithDrag.clearResults, SpringOscillator.clearResults, ConstantAcceleration.clearResults, ChargeInField.clearResults], rfl⟩

/-- C5: `createModel` returns a model exactly for the selectors 1, 2, 3 and 4:
1 gives a FallingBodyWithDrag with (1.0, 9.81, 0.1, 100.0), 2 a SpringOscillator
with (1.0, 10.0, 0.1, 1.0), 3 a ConstantAcceleration with (0.0, 0.0, 1.0), 4 a
ChargeInField with (1.0, 1.0, 1.0, 0.0), each with an empty result sequence;
every other integer gives no model. -/
theorem createModel_selects_model :
    createModel 1 = some (.fallingBodyWithDrag
      { mass := 1.0, gravity := 9.81, dragCoeff := 0.1, height := 100.0, results := [] }) ∧
    createModel 2 = some (.springOscillator
      { mass := 1.0, stiffness := 10.0, damping := 0.1, amplitude := 1.0, results := [] }) ∧
    createModel 3 = some (.constantAcceleration
      { initialPos := 0.0, initialVel := 0.0, acceleration := 1.0, results := [] }) ∧
    createModel 4 = some (.chargeInField
      { charge := 1.0, mass := 1.0, eField := 1.0, initialVel := 0.0, results := [] }) ∧
    (∀ n : Int, (createModel n).isSome = true ↔ (n = 1 ∨ n = 2 ∨ n = 3 ∨ n = 4)) ∧
    (∀ n : Int, createModel n = none ↔ ¬ (n = 1 ∨ n = 2 ∨ n = 3 ∨ n = 4)) ∧
    (∀ (n : Int) (p : PhysicsModel), createModel n = some p ↔
      ((n = 1 ∧ p = .fallingBodyWithDrag FallingBodyWithDrag.new) ∨
       (n = 2 ∧ p = .springOscillator SpringOscillator.new) ∨
       (n = 3 ∧ p = .constantAcceleration ConstantAcceleration.new) ∨
       (n = 4 ∧ p = .chargeInField ChargeInField.new))) := by
  refine ⟨rfl, rfl, rfl, rfl, ?_, ?_, ?_⟩
  · intro n
    unfold createModel
    split <;> simp_all
  · intro n
    unfold createModel
    split <;> simp_all
  · intro n p
    unfold createModel
    split <;> simp_all [eq_comm]


/-! ## ConstantAcceleration: closed form -/

/-- After `k` rounds the loop of `ConstantAcceleration::simulate` has pushed the
closed-form records for the `k` times `time, time + dt, ...`. -/
theorem constantAcceleration_iterate_results (m : ConstantAcceleration) (dt : ℚ)
    (s : LoopState) (k : Nat) :
    ((ConstantAcceleration.loopBody m dt)^[k] s).results
      = s.results ++ (List.range k).map fun (i : Nat) =>
          ({ time := s.time + i * dt,
             position := m.initialPos + m.initialVel * (s.time + i * dt)
               + 0.5 * m.acceleration * (s.time + i * dt) * (s.time + i * dt),
             velocity := m.initialVel + m.acceleration * (s.time + i * dt),
             other_param := m.acceleration } : SimulationResult) := by
  induction k with
  | zero => simp
  | succ k ih =>
    rw [Function.iterate_succ_apply', List.range_succ, List.map_append, ← List.append_assoc,
      ← ih]
    have ht := iterate_time (ConstantAcceleration.loopBody m dt) dt (fun _ => rfl) s k
    simp only [ConstantAcceleration.loopBody, List.map_cons, List.map_nil, ht]

/-- The first `k` records of `ConstantAcceleration::simulate`. -/
theorem constantAcceleration_results_from_zero (m : ConstantAcceleration) (dt : ℚ)
    (k : Nat) :
    ((ConstantAcceleration.loopBody m.clearResults dt)^[k]
        { time := 0.0, position := 0, velocity := 0, results := m.clearResults.results }).results
      = (List.range k).map fun (i : Nat) =>
          ({ time := i * dt,
             position := m.initialPos + m.initialVel * (i * dt)
               + 0.5 * m.acceleration * (i * dt) ^ 2,
             velocity := m.initialVel + m.acceleration * (i * dt),
             other_param := m.acceleration } : SimulationResult) := by
  rw [constantAcceleration_iterate_results]
  simp only [ConstantAcceleration.clearResults, List.nil_append]
  apply List.map_congr_left
  intro i _
  norm_num
  ring

/-- C6: for ConstantAcceleration with parameters (p0, v0, a) and `timeStep > 0`,
`simulate` returns (with any fuel of at least `⌊totalTime / timeStep⌋ + 2`), and
the i-th record (0-based) of its result has time `i * timeStep`, position
`p0 + v0 * t + 0.5 * a * t ^ 2` and velocity `v0 + a * t` at `t = i * timeStep`,
and auxiliary `a`.  There are `⌊totalTime / timeStep⌋ + 1` records when
`totalTime ≥ 0` (none otherwise), and then the first record is the initial state
at time 0. -/
theorem constantAcceleration_closed_form (m : ConstantAcceleration) (timeStep totalTime : ℚ)
    (hdt : 0 < timeStep) :
    ∃ m' : ConstantAcceleration,
      (∀ extra : Nat,
        m.simulate (⌊totalTime / timeStep⌋₊ + 2 + extra) timeStep totalTime = some m') ∧
      m'.getResults.length = (if 0 ≤ totalTime then ⌊totalTime / timeStep⌋₊ + 1 else 0) ∧
      (∀ (i : Nat) (h : i < m'.getResults.length),
        m'.getResults[i]
          = { time := i * timeStep,
              position := m.initialPos + m.initialVel * (i * timeStep)
                + 0.5 * m.acceleration * (i * timeStep) ^ 2,
              velocity := m.initialVel + m.acceleration * (i * timeStep),
              other_param := m.acceleration }) ∧
      (0 ≤ totalTime →
        m'.getResults.head? = some
          { time := 0, position := m.initialPos, velocity := m.initialVel,
            other_param := m.acceleration }) := by
  have hexit := timeLoop_exit (ConstantAcceleration.loopBody m.clearResults timeStep) timeStep
    totalTime hdt (fun _ => rfl)
    { time := 0.0, position := 0, velocity := 0, results := m.clearResults.results }
    (by norm_num)
  have hres := constantAcceleration_results_from_zero m timeStep
    (if 0 ≤ totalTime then ⌊totalTime / timeStep⌋₊ + 1 else 0)
  refine ⟨{ m.clearResults with results :=
      ((ConstantAcceleration.loopBody m.clearResults timeStep)^[
        if 0 ≤ totalTime then ⌊totalTime / timeStep⌋₊ + 1 else 0]
        { time := 0.0, position := 0, velocity := 0,
          results := m.clearResults.results }).results }, fun extra => ?_, ?_, ?_, ?_⟩
  · simp only [ConstantAcceleration.simulate]
    rw [hexit extra]
    rfl
  · simp only [ConstantAcceleration.getResults, hres, List.length_map, List.length_range]
  · intro i h
    simp only [ConstantAcceleration.getResults, hres, List.getElem_map, List.getElem_range]
  · intro hT
    unfold ConstantAcceleration.getResults
    rw [hres, if_pos hT, List.range_succ_eq_map, List.map_cons, List.head?_cons]
    norm_num

/-- Witness for C6: initial position 1, initial velocity 2, acceleration 3,
step 1/2 up to time 1. -/
theorem constantAcceleration_closed_form_witness :
    (0 : ℚ) < 1 / 2 ∧
    ∃ m' : ConstantAcceleration,
      (∀ extra : Nat,
        ConstantAcceleration.simulate (⌊(1 : ℚ) / (1 / 2)⌋₊ + 2 + extra) ⟨1, 2, 3, []⟩ (1 / 2) 1
          = some m') ∧
      m'.getResults.length = (if (0 : ℚ) ≤ 1 then ⌊(1 : ℚ) / (1 / 2)⌋₊ + 1 else 0) ∧
      (∀ (i : Nat) (h : i < m'.getResults.length),
        m'.getResults[i]
          = { time := i * (1 / 2),
              position := 1 + 2 * (i * (1 / 2)) + 0.5 * 3 * (i * (1 / 2)) ^ 2,
              velocity := 2 + 3 * (i * (1 / 2)),
              other_param := 3 }) ∧
      ((0 : ℚ) ≤ 1 →
        m'.getResults.head? = some
          { time := 0, position := 1, velocity := 2, other_param := 3 }) :=
  ⟨by norm_num, constantAcceleration_closed_form ⟨1, 2, 3, []⟩ (1 / 2) 1 (by norm_num)⟩


/-- Spare fuel does not change what a loop returns, seen through any function. -/
theorem map_whileLoop_mono {σ τ : Type} (cond : σ → Bool) (body : σ → σ)
    (brk : σ → Bool) (g : σ → τ) (n k : Nat) (s : σ) (a : τ)
    (ha : (whileLoop cond body brk n s).map g = some a) :
    (whileLoop cond body brk (n + k) s).map g = some a := by
  rw [Option.map_eq_some'] at ha ⊢
  obtain ⟨x, hx, rfl⟩ := ha
  exact ⟨x, whileLoop_mono cond body brk n k s x hx, rfl⟩

/-- C7, as stated, fails: for ConstantAcceleration with initialPos = 0,
initialVel = 0, acceleration = 2.0, no run of `simulate(1.0, 3.0)` returns the
three records at t = 1, 2, 3 alone. -/
theorem constantAcceleration_scenario_not_three_records :
    ¬ ∃ (fuel : Nat) (m' : ConstantAcceleration),
        ConstantAcceleration.simulate fuel
            { initialPos := 0, initialVel := 0, acceleration := 2.0, results := [] } 1.0 3.0
          = some m' ∧
        m'.getResults
          = [{ time := 1, position := 1.0, velocity := 2.0, other_param := 2.0 },
             { time := 2, position := 4.0, velocity := 4.0, other_param := 2.0 },
             { time := 3, position := 9.0, velocity := 6.0, other_param := 2.0 }] := by
  rintro ⟨fuel, m', hsim, hres⟩
  have h5 : ConstantAcceleration.simulate 5
      { initialPos := 0, initialVel := 0, acceleration := 2.0, results := [] } 1.0 3.0
      = some ⟨0, 0, 2, [⟨0, 0, 0, 2⟩, ⟨1, 1, 2, 2⟩, ⟨2, 4, 4, 2⟩, ⟨3, 9, 6, 2⟩]⟩ := by decide!
  have := map_whileLoop_unique _ _ _ _ fuel 5 _ _ _ hsim h5
  subst this
  revert hres
  decide!

/-- C7, amended: for ConstantAcceleration with initialPos = 0, initialVel = 0,
acceleration = 2.0 and any prior result sequence, `simulate(1.0, 3.0)` returns
(with any fuel of at least 5) exactly the four records at t = 0, 1, 2, 3, with
positions 0, 1.0, 4.0, 9.0, velocities 0, 2.0, 4.0, 6.0 and auxiliary 2.0 in
every record. -/
theorem constantAcceleration_scenario_four_records (r : List SimulationResult) (extra : Nat) :
    ConstantAcceleration.simulate (5 + extra)
        { initialPos := 0, initialVel := 0, acceleration := 2.0, results := r } 1.0 3.0
      = some
          { initialPos := 0, initialVel := 0, acceleration := 2.0,
            results :=
              [{ time := 0, position := 0, velocity := 0, other_param := 2.0 },
               { time := 1, position := 1.0, velocity := 2.0, other_param := 2.0 },
               { time := 2, position := 4.0, velocity := 4.0, other_param := 2.0 },
               { time := 3, position := 9.0, velocity := 6.0, other_param := 2.0 }] } := by
  have h5 : ConstantAcceleration.simulate 5
      { initialPos := 0, initialVel := 0, acceleration := 2.0, results := [] } 1.0 3.0
      = some
          { initialPos := 0, initialVel := 0, acceleration := 2.0,
            results :=
              [{ time := 0, position := 0, velocity := 0, other_param := 2.0 },
               { time := 1, position := 1.0, velocity := 2.0, other_param := 2.0 },
               { time := 2, position := 4.0, velocity := 4.0, other_param := 2.0 },
               { time := 3, position := 9.0, velocity := 6.0, other_param := 2.0 }] } := by
    decide!
  exact map_whileLoop_mono _ _ _ _ 5 extra _ _ h5

/-! ## Number of records -/

/-- The count `⌊T / dt⌋ + 1` as an integer, and against `⌈T / dt⌉`. -/
theorem count_arith (dt T : ℚ) (hdt : 0 < dt) (hT : 0 ≤ T) (n : Nat)
    (hn : n = (if 0 ≤ T then ⌊T / dt⌋₊ + 1 else 0)) :
    (n : ℤ) = ⌊T / dt⌋ + 1 ∧ ((n : ℤ) = ⌈T / dt⌉ ∨ (n : ℤ) = ⌈T / dt⌉ + 1) := by
  rw [if_pos hT] at hn
  have h0 : 0 ≤ T / dt := div_nonneg hT hdt.le
  have h1 : ((⌊T / dt⌋₊ : ℕ) : ℤ) = ⌊T / dt⌋ := Int.natCast_floor_eq_floor h0
  have h2 : ⌊T / dt⌋ ≤ ⌈T / dt⌉ := Int.floor_le_ceil _
  have h3 : ⌈T / dt⌉ ≤ ⌊T / dt⌋ + 1 := Int.ceil_le_floor_add_one _
  subst hn
  push_cast
  rw [h1]
  refine ⟨rfl, ?_⟩
  omega

/-- The loop `while (time <= totalTime)` with a body that adds `dt > 0` to `time`
and pushes one record, started at time 0 with no records, exits with
`⌊totalTime / dt⌋ + 1` records when `totalTime ≥ 0` and with none otherwise. -/
theorem timeLoop_record_count (body : LoopState → LoopState) (dt T : ℚ) (hdt : 0 < dt)
    (htime : ∀ s, (body s).time = s.time + dt)
    (hres : ∀ s, (body s).results.length = s.results.length + 1)
    (s : LoopState) (hs : s.time = 0) (hs' : s.results = []) :
    ∃ s' : LoopState,
      (∀ extra : Nat,
        whileLoop (timeCond T) body noBreak (⌊T / dt⌋₊ + 2 + extra) s = some s') ∧
      s'.results.length = (if 0 ≤ T then ⌊T / dt⌋₊ + 1 else 0) := by
  refine ⟨_, timeLoop_exit body dt T hdt htime s hs, ?_⟩
  rw [iterate_results_length body hres, hs', List.length_nil, Nat.zero_add]

/-- C8: for SpringOscillator, ConstantAcceleration and ChargeInField, with any
parameters, `timeStep > 0` and `totalTime ≥ 0`, `simulate` returns (with any fuel
of at least `⌊totalTime / timeStep⌋ + 2`) and the number of records is exactly
`⌊totalTime / timeStep⌋ + 1`; it is therefore `⌈totalTime / timeStep⌉` or
`⌈totalTime / timeStep⌉ + 1`. -/
theorem simulate_record_count (timeStep totalTime : ℚ) (hdt : 0 < timeStep) (hT : 0 ≤ totalTime) :
    (∀ m : SpringOscillator, ∃ m' : SpringOscillator,
      (∀ extra : Nat,
        m.simulate (⌊totalTime / timeStep⌋₊ + 2 + extra) timeStep totalTime = some m') ∧
      (m'.getResults.length : ℤ) = ⌊totalTime / timeStep⌋ + 1 ∧
      ((m'.getResults.length : ℤ) = ⌈totalTime / timeStep⌉ ∨
        (m'.getResults.length : ℤ) = ⌈totalTime / timeStep⌉ + 1)) ∧
    (∀ m : ConstantAcceleration, ∃ m' : ConstantAcceleration,
      (∀ extra : Nat,
        m.simulate (⌊totalTime / timeStep⌋₊ + 2 + extra) timeStep totalTime = some m') ∧
      (m'.getResults.length : ℤ) = ⌊totalTime / timeStep⌋ + 1 ∧
      ((m'.getResults.length : ℤ) = ⌈totalTime / timeStep⌉ ∨
        (m'.getResults.length : ℤ) = ⌈totalTime / timeStep⌉ + 1)) ∧
    (∀ m : ChargeInField, ∃ m' : ChargeInField,
      (∀ extra : Nat,
        m.simulate (⌊totalTime / timeStep⌋₊ + 2 + extra) timeStep totalTime = some m') ∧
      (m'.getResults.length : ℤ) = ⌊totalTime / timeStep⌋ + 1 ∧
      ((m'.getResults.length : ℤ) = ⌈totalTime / timeStep⌉ ∨
        (m'.getResults.length : ℤ) = ⌈totalTime / timeStep⌉ + 1)) := by
  refine ⟨fun m => ?_, fun m => ?_, fun m => ?_⟩
  · obtain ⟨s', hrun, hlen⟩ := timeLoop_record_count
      (SpringOscillator.loopBody m.clearResults timeStep) timeStep totalTime hdt
      (fun _ => rfl) (fun s => by simp [SpringOscillator.loopBody])
      { time := 0.0, position := m.clearResults.amplitude, velocity := 0.0,
        results := m.clearResults.results } (by norm_num) rfl
    refine ⟨{ m.clearResults with results := s'.results }, fun extra => ?_, ?_⟩
    · simp only [SpringOscillator.simulate, hrun extra, Option.map_some']
    · exact count_arith timeStep totalTime hdt hT _ hlen
  · obtain ⟨s', hrun, hlen⟩ := timeLoop_record_count
      (ConstantAcceleration.loopBody m.clearResults timeStep) timeStep totalTime hdt
      (fun _ => rfl) (fun s => by simp [ConstantAcceleration.loopBody])
      { time := 0.0, position := 0, velocity := 0,
        results := m.clearResults.results } (by norm_num) rfl
    refine ⟨{ m.clearResults with results := s'.results }, fun extra => ?_, ?_⟩
    · simp only [ConstantAcceleration.simulate, hrun extra, Option.map_some']
    · exact count_arith timeStep totalTime hdt hT _ hlen
  · obtain ⟨s', hrun, hlen⟩ := timeLoop_record_count
      (ChargeInField.loopBody m.clearResults timeStep) timeStep totalTime hdt
      (fun _ => rfl) (fun s => by simp [ChargeInField.loopBody])
      { time := 0.0, position := 0.0, velocity := m.clearResults.initialVel,
        results := m.clearResults.results } (by norm_num) rfl
    refine ⟨{ m.clearResults with results := s'.results }, fun extra => ?_, ?_⟩
    · simp only [ChargeInField.simulate, hrun extra, Option.map_some']
    · exact count_arith timeStep totalTime hdt hT _ hlen

/-- Witness for C8: step 1/2 up to time 5/4, which gives three records. -/
theorem simulate_record_count_witness :
    (0 : ℚ) < 1 / 2 ∧ (0 : ℚ) ≤ 5 / 4 ∧
    ∃ m' : ChargeInField,
      (∀ extra : Nat,
        ChargeInField.new.simulate (⌊(5 / 4 : ℚ) / (1 / 2)⌋₊ + 2 + extra) (1 / 2) (5 / 4)
          = some m') ∧
      (m'.getResults.length : ℤ) = ⌊(5 / 4 : ℚ) / (1 / 2)⌋ + 1 ∧
      ((m'.getResults.length : ℤ) = ⌈(5 / 4 : ℚ) / (1 / 2)⌉ ∨
        (m'.getResults.length : ℤ) = ⌈(5 / 4 : ℚ) / (1 / 2)⌉ + 1) :=
  ⟨by norm_num, by norm_num,
    (simulate_record_count (1 / 2) (5 / 4) (by norm_num) (by norm_num)).2.2 ChargeInField.new⟩


/-! ## FallingBodyWithDrag: ground impact -/

/-- Loop invariant of `FallingBodyWithDrag::simulate`: when the loop is entered
with all recorded positions above the ground, every record but the last of the
exit state is above the ground. -/
theorem fallingBody_loop_positions (m : FallingBodyWithDrag) (dt T : ℚ) (fuel : Nat) :
    ∀ s s' : LoopState, (∀ r ∈ s.results, 0 < r.position) →
      whileLoop (FallingBodyWithDrag.loopCond T) (FallingBodyWithDrag.loopBody m dt)
        FallingBodyWithDrag.loopBreak fuel s = some s' →
      ∀ r ∈ s'.results.dropLast, 0 < r.position := by
  induction fuel with
  | zero => intro s s' _ h; simp [whileLoop] at h
  | succ fuel ih =>
    intro s s' hs h
    rw [whileLoop_succ] at h
    have hbody : (FallingBodyWithDrag.loopBody m dt s).results
        = s.results ++ [⟨(FallingBodyWithDrag.loopBody m dt s).time,
            (FallingBodyWithDrag.loopBody m dt s).position,
            (FallingBodyWithDrag.loopBody m dt s).velocity,
            m.gravity - 0.5 * m.dragCoeff * s.velocity * s.velocity / m.mass⟩] := rfl
    split at h
    · split at h
      · cases h
        intro r hr
        rw [hbody, List.dropLast_concat] at hr
        exact hs r hr
      · rename_i hbrk
        refine ih _ s' ?_ h
        intro r hr
        rw [hbody, List.mem_append, List.mem_singleton] at hr
        rcases hr with hr | rfl
        · exact hs r hr
        · have h0 : (0.0 : ℚ) = 0 := by norm_num
          simpa [FallingBodyWithDrag.loopBreak, h0] using hbrk
    · cases h
      intro r hr
      exact hs r (List.mem_of_mem_dropLast hr)

/-- C10: for FallingBodyWithDrag with mass = 1, gravity = 9.81, dragCoeff = 0,
height = 10 and any prior result sequence, `simulate(0.1, 100)` returns (with any
fuel of at least 14) and stops by ground impact, not by time: the result sequence
is non-empty, its last record has position ≤ 0 and time < 100, and the record
before the last has position > 0.  There are 14 records; the last two are at
times 1.3 and 1.4 with positions 1.0729 and -0.3005. -/
theorem fallingBody_free_fall_stops_on_impact (r : List SimulationResult) :
    ∃ (m' : FallingBodyWithDrag) (prev last : SimulationResult),
      (∀ extra : Nat,
        FallingBodyWithDrag.simulate (14 + extra)
            { mass := 1, gravity := 9.81, dragCoeff := 0, height := 10, results := r }
            0.1 100 = some m') ∧
      m'.getResults ≠ [] ∧
      m'.getResults.getLast? = some last ∧
      last.position ≤ 0 ∧ last.time < 100 ∧
      m'.getResults.dropLast.getLast? = some prev ∧
      0 < prev.position ∧
      m'.getResults.length = 14 ∧
      last = { time := 1.4, position := -0.3005, velocity := 13.734, other_param := 9.81 } ∧
      prev = { time := 1.3, position := 1.0729, velocity := 12.753, other_param := 9.81 } := by
  have h14 : FallingBodyWithDrag.simulate 14
      { mass := 1, gravity := 9.81, dragCoeff := 0, height := 10, results := [] } 0.1 100
      = some { mass := 1, gravity := 9.81, dragCoeff := 0, height := 10, results :=
      [⟨0.1, 9.9019, 0.981, 9.81⟩,
       ⟨0.2, 9.7057, 1.962, 9.81⟩,
       ⟨0.3, 9.4114, 2.943, 9.81⟩,
       ⟨0.4, 9.019, 3.924, 9.81⟩,
       ⟨0.5, 8.5285, 4.905, 9.81⟩,
       ⟨0.6, 7.9399, 5.886, 9.81⟩,
       ⟨0.7, 7.2532, 6.867, 9.81⟩,
       ⟨0.8, 6.4684, 7.848, 9.81⟩,
       ⟨0.9, 5.5855, 8.829, 9.81⟩,
       ⟨1, 4.6045, 9.81, 9.81⟩,
       ⟨1.1, 3.5254, 10.791, 9.81⟩,
       ⟨1.2, 2.3482, 11.772, 9.81⟩,
       ⟨1.3, 1.0729, 12.753, 9.81⟩,
       ⟨1.4, -0.3005, 13.734, 9.81⟩] } := by
    decide!
  refine ⟨_, _, _, fun extra => map_whileLoop_mono _ _ _ _ 14 extra _ _ h14,
    by decide!, by decide!, by decide!, by decide!, by decide!, by decide!, by decide!,
    rfl, rfl⟩


/-! ## Loop invariants and termination -/

/-- A property that holds on entry and is kept by every round of the body holds
in the state in which the loop exits. -/
theorem whileLoop_invariant {σ : Type} (cond : σ → Bool) (body : σ → σ) (brk : σ → Bool)
    (P : σ → Prop) (hstep : ∀ s, P s → cond s = true → P (body s)) (fuel : Nat) :
    ∀ s s' : σ, P s → whileLoop cond body brk fuel s = some s' → P s' := by
  induction fuel with
  | zero => intro s s' _ h; simp [whileLoop] at h
  | succ fuel ih =>
    intro s s' hs h
    rw [whileLoop_succ] at h
    split at h
    · rename_i hc
      split at h
      · cases h; exact hstep s hs hc
      · exact ih _ _ (hstep s hs hc) h
    · cases h; exact hs

/-- Extending a chain at its end: the new element has to follow the last one. -/
theorem chain_concat_iff {α : Type} (R : α → α → Prop) :
    ∀ (a : α) (l : List α) (b : α),
      List.Chain R a (l ++ [b]) ↔ List.Chain R a l ∧ R (l.getLastD a) b
  | a, [], b => by simp
  | a, c :: l, b => by
    have ih := chain_concat_iff R c l b
    simp only [List.cons_append, List.chain_cons, ih, List.getLastD_cons, and_assoc]

/-- One round of a body that pushes a record `r` related by `R` to the current
state, and leaves the locals equal to `r`, keeps the result sequence a chain for
`R` that starts from `init` and ends in the current state. -/
theorem trajectory_invariant (R : SimulationResult → SimulationResult → Prop)
    (init : SimulationResult) (body : LoopState → LoopState)
    (hbody : ∀ (s : LoopState) (p : SimulationResult),
      p.time = s.time → p.position = s.position → p.velocity = s.velocity →
      ∃ r : SimulationResult, (body s).results = s.results ++ [r] ∧ R p r ∧
        r.time = (body s).time ∧ r.position = (body s).position ∧
        r.velocity = (body s).velocity)
    (s : LoopState)
    (hs : List.Chain R init s.results ∧
      (s.results.getLastD init).time = s.time ∧
      (s.results.getLastD init).position = s.position ∧
      (s.results.getLastD init).velocity = s.velocity) :
    List.Chain R init (body s).results ∧
      ((body s).results.getLastD init).time = (body s).time ∧
      ((body s).results.getLastD init).position = (body s).position ∧
      ((body s).results.getLastD init).velocity = (body s).velocity := by
  obtain ⟨hchain, ht, hx, hv⟩ := hs
  obtain ⟨r, hr, hR, hrt, hrx, hrv⟩ := hbody s _ ht hx hv
  rw [hr, List.getLastD_concat, chain_concat_iff]
  exact ⟨⟨hchain, hR⟩, hrt, hrx, hrv⟩

/-- A loop, with or without `break`, whose condition requires `time <= T` and
whose body adds `dt` to `time` and pushes one record, exits within `k` rounds
once `time + k * dt` exceeds `T`, having pushed at most `k` records. -/
theorem timeBounded_loop_exits (cond : LoopState → Bool) (body : LoopState → LoopState)
    (brk : LoopState → Bool) (dt T : ℚ)
    (hcond : ∀ s, cond s = true → s.time ≤ T)
    (htime : ∀ s, (body s).time = s.time + dt)
    (hres : ∀ s, (body s).results.length = s.results.length + 1) (k : Nat) :
    ∀ s : LoopState, T < s.time + k * dt →
      ∃ s' : LoopState,
        (∀ extra : Nat, whileLoop cond body brk (k + 1 + extra) s = some s') ∧
        s'.results.length ≤ s.results.length + k := by
  induction k with
  | zero =>
    intro s hs
    have hc : cond s = false := by
      by_contra h
      have := hcond s (by simpa using h)
      simp only [Nat.cast_zero, zero_mul, add_zero] at hs
      exact absurd this (not_le.mpr hs)
    refine ⟨s, fun extra => ?_, Nat.le_refl _⟩
    rw [Nat.zero_add, Nat.add_comm, whileLoop_succ, hc]
    rfl
  | succ k ih =>
    intro s hs
    have hs' : T < (body s).time + k * dt := by
      rw [htime]
      push_cast at hs
      linarith
    obtain ⟨s', hrun, hlen⟩ := ih (body s) hs'
    rw [hres] at hlen
    by_cases hc : cond s = true
    · by_cases hb : brk (body s) = true
      · refine ⟨body s, fun extra => ?_, by rw [hres]; omega⟩
        rw [Nat.add_right_comm (k + 1) 1 extra, whileLoop_succ, if_pos hc, if_pos hb]
      · refine ⟨s', fun extra => ?_, by omega⟩
        rw [Nat.add_right_comm (k + 1) 1 extra, whileLoop_succ, if_pos hc, if_neg hb]
        exact hrun extra
    · refine ⟨s, fun extra => ?_, by omega⟩
      rw [Nat.add_right_comm (k + 1) 1 extra, whileLoop_succ, if_neg hc]

/-- Such a loop started at time 0 with `dt > 0` exits with fuel
`⌊T / dt⌋ + 2`, having pushed at most `⌊T / dt⌋ + 1` records when `T ≥ 0` and
none when `T < 0`. -/
theorem timeBounded_loop_exits_from_zero (cond : LoopState → Bool)
    (body : LoopState → LoopState) (brk : LoopState → Bool) (dt T : ℚ) (hdt : 0 < dt)
    (hcond : ∀ s, cond s = true → s.time ≤ T)
    (htime : ∀ s, (body s).time = s.time + dt)
    (hres : ∀ s, (body s).results.length = s.results.length + 1)
    (s : LoopState) (hs : s.time = 0) :
    ∃ s' : LoopState,
      (∀ extra : Nat, whileLoop cond body brk (⌊T / dt⌋₊ + 2 + extra) s = some s') ∧
      s'.results.length
        ≤ s.results.length + (if 0 ≤ T then ⌊T / dt⌋₊ + 1 else 0) := by
  by_cases hT : 0 ≤ T
  · rw [if_pos hT]
    have hlt : T < s.time + ((⌊T / dt⌋₊ + 1 : ℕ) : ℚ) * dt := by
      rw [hs, zero_add]
      have h2 : T / dt < ⌊T / dt⌋₊ + 1 := Nat.lt_floor_add_one _
      have := (div_lt_iff₀ hdt).mp h2
      push_cast
      exact this
    exact timeBounded_loop_exits cond body brk dt T hcond htime hres _ s hlt
  · rw [if_neg hT]
    have hlt : T < s.time + ((0 : ℕ) : ℚ) * dt := by
      rw [hs]; simp only [Nat.cast_zero, zero_mul, add_zero]; exact not_le.mp hT
    obtain ⟨s', hrun, hlen⟩ :=
      timeBounded_loop_exits cond body brk dt T hcond htime hres 0 s hlt
    refine ⟨s', fun extra => ?_, hlen⟩
    have := hrun (⌊T / dt⌋₊ + 1 + extra)
    rw [← this]
    congr 1
    omega

/-- The loop condition of `FallingBodyWithDrag::simulate` requires
`time <= totalTime`. -/
theorem fallingBody_loopCond_time (T : ℚ) (s : LoopState)
    (h : FallingBodyWithDrag.loopCond T s = true) : s.time ≤ T := by
  simp only [FallingBodyWithDrag.loopCond, Bool.and_eq_true, decide_eq_true_eq] at h
  exact h.1

/-- The loop condition `time <= totalTime`, as a proposition. -/
theorem timeCond_time (T : ℚ) (s : LoopState) (h : timeCond T s = true) : s.time ≤ T := by
  simpa [timeCond] using h

/-- With `dt > 0`, `FallingBodyWithDrag::simulate` returns, with at most
`⌊T / dt⌋ + 1` records when `T ≥ 0` and none when `T < 0`. -/
theorem fallingBody_simulate_returns (m : FallingBodyWithDrag) (dt T : ℚ) (hdt : 0 < dt) :
    ∃ m' : FallingBodyWithDrag,
      (∀ extra : Nat, m.simulate (⌊T / dt⌋₊ + 2 + extra) dt T = some m') ∧
      m'.results.length ≤ (if 0 ≤ T then ⌊T / dt⌋₊ + 1 else 0) := by
  obtain ⟨s', hrun, hlen⟩ := timeBounded_loop_exits_from_zero
    (FallingBodyWithDrag.loopCond T) (FallingBodyWithDrag.loopBody m.clearResults dt)
    FallingBodyWithDrag.loopBreak dt T hdt (fallingBody_loopCond_time T) (fun _ => rfl)
    (fun s => by simp [FallingBodyWithDrag.loopBody])
    { time := 0.0, position := m.clearResults.height, velocity := 0.0,
      results := m.clearResults.results } (by norm_num)
  refine ⟨{ m.clearResults with results := s'.results }, fun extra => ?_, ?_⟩
  · simp only [FallingBodyWithDrag.simulate, hrun extra, Option.map_some']
  · simpa [FallingBodyWithDrag.clearResults] using hlen


/-! ## Step rules of the integrators -/

/-- C11: the claim says that a FallingBodyWithDrag whose initial height is ≤ 0,
height exactly 0 included, gets an empty result sequence, because a step is only
computed from a state with position > 0.  The loop condition of the code is
`position >= 0.0`: with the default mass, gravity and drag coefficient,
height = 0, `simulate(0.1, 1)` enters the loop from position 0 and returns (with
any fuel of at least 1) one record, at time 0.1 with position -0.0981. -/
theorem fallingBody_height_zero_one_record (extra : Nat) :
    FallingBodyWithDrag.loopCond 1
        { time := 0.0, position := 0, velocity := 0.0, results := [] } = true ∧
    FallingBodyWithDrag.simulate (1 + extra)
        { mass := 1.0, gravity := 9.81, dragCoeff := 0.1, height := 0, results := [] } 0.1 1
      = some
          { mass := 1.0, gravity := 9.81, dragCoeff := 0.1, height := 0,
            results :=
              [{ time := 0.1, position := -0.0981, velocity := 0.981, other_param := 9.81 }] } := by
  refine ⟨by decide!, ?_⟩
  have h1 : FallingBodyWithDrag.simulate 1
      { mass := 1.0, gravity := 9.81, dragCoeff := 0.1, height := 0, results := [] } 0.1 1
      = some
          { mass := 1.0, gravity := 9.81, dragCoeff := 0.1, height := 0,
            results :=
              [{ time := 0.1, position := -0.0981, velocity := 0.981, other_param := 9.81 }] } := by
    decide!
  exact map_whileLoop_mono _ _ _ _ 1 extra _ _ h1

/-- C12: for FallingBodyWithDrag with mass ≠ 0, whenever `simulate` returns, its
result sequence follows the recurrence from the initial state (time 0, position
`height`, velocity 0): a record produced from the state `before` (the initial
state or the previous record) has auxiliary
`a = gravity - (0.5 * dragCoeff * v ^ 2) / mass`, velocity `v + a * timeStep`,
position `x - v' * timeStep` with the new velocity `v'`, and time
`t + timeStep`.  With `timeStep > 0` it does return.  (The hypothesis on the mass
keeps the division inside the exact reading of doubles.) -/
theorem fallingBody_follows_recurrence (m : FallingBodyWithDrag) (timeStep totalTime : ℚ)
    (_hmass : m.mass ≠ 0) :
    (∀ (fuel : Nat) (m' : FallingBodyWithDrag),
      m.simulate fuel timeStep totalTime = some m' →
      List.Chain
        (fun before record : SimulationResult =>
          record.other_param
              = m.gravity - (0.5 * m.dragCoeff * before.velocity ^ 2) / m.mass ∧
            record.velocity = before.velocity + record.other_param * timeStep ∧
            record.position = before.position - record.velocity * timeStep ∧
            record.time = before.time + timeStep)
        { time := 0, position := m.height, velocity := 0, other_param := 0 }
        m'.getResults) ∧
    (0 < timeStep →
      ∃ m' : FallingBodyWithDrag, ∀ extra : Nat,
        m.simulate (⌊totalTime / timeStep⌋₊ + 2 + extra) timeStep totalTime = some m') := by
  refine ⟨fun fuel m' h => ?_, fun hdt => ?_⟩
  · simp only [FallingBodyWithDrag.simulate, Option.map_eq_some'] at h
    obtain ⟨s', hs', rfl⟩ := h
    have hinv := whileLoop_invariant _ _ _ _
      (fun s hs _ => trajectory_invariant
        (fun before record : SimulationResult =>
          record.other_param
              = m.gravity - (0.5 * m.dragCoeff * before.velocity ^ 2) / m.mass ∧
            record.velocity = before.velocity + record.other_param * timeStep ∧
            record.position = before.position - record.velocity * timeStep ∧
            record.time = before.time + timeStep)
        { time := 0, position := m.height, velocity := 0, other_param := 0 }
        (FallingBodyWithDrag.loopBody m.clearResults timeStep)
        (fun s p ht hx hv => ⟨_, rfl, by
          refine ⟨⟨?_, ?_, ?_, ?_⟩, rfl, rfl, rfl⟩ <;>
            simp only [FallingBodyWithDrag.loopBody, FallingBodyWithDrag.clearResults,
              ht, hx, hv]
          ring⟩) s hs) fuel _ s'
      (by
        refine ⟨List.Chain.nil, ?_, rfl, ?_⟩ <;>
          simp only [FallingBodyWithDrag.clearResults, List.getLastD_nil] <;> norm_num) hs'
    exact hinv.1
  · obtain ⟨m', hrun, _⟩ := fallingBody_simulate_returns m timeStep totalTime hdt
    exact ⟨m', hrun⟩

/-- Witness for C12: mass 1, gravity 1, no drag, height 2, step 1 up to time 10;
two records, the second below the ground. -/
theorem fallingBody_follows_recurrence_witness :
    (1 : ℚ) ≠ 0 ∧
    FallingBodyWithDrag.simulate 5 ⟨1, 1, 0, 2, []⟩ 1 10
        = some ⟨1, 1, 0, 2, [⟨1, 1, 1, 1⟩, ⟨2, -1, 2, 1⟩]⟩ ∧
    List.Chain
      (fun before record : SimulationResult =>
        record.other_param = 1 - (0.5 * 0 * before.velocity ^ 2) / 1 ∧
          record.velocity = before.velocity + record.other_param * 1 ∧
          record.position = before.position - record.velocity * 1 ∧
          record.time = before.time + 1)
      { time := 0, position := 2, velocity := 0, other_param := 0 }
      [⟨1, 1, 1, 1⟩, ⟨2, -1, 2, 1⟩] :=
  ⟨by norm_num, by decide!,
    (fallingBody_follows_recurrence ⟨1, 1, 0, 2, []⟩ 1 10 (by norm_num)).1 5
      ⟨1, 1, 0, 2, [⟨1, 1, 1, 1⟩, ⟨2, -1, 2, 1⟩]⟩ (by decide!)⟩

/-- With `dt > 0`, `SpringOscillator::simulate` returns, with
`⌊T / dt⌋ + 1` records when `T ≥ 0` and none when `T < 0`. -/
theorem spring_simulate_returns (m : SpringOscillator) (dt T : ℚ) (hdt : 0 < dt) :
    ∃ m' : SpringOscillator,
      (∀ extra : Nat, m.simulate (⌊T / dt⌋₊ + 2 + extra) dt T = some m') ∧
      m'.results.length = (if 0 ≤ T then ⌊T / dt⌋₊ + 1 else 0) := by
  obtain ⟨s', hrun, hlen⟩ := timeLoop_record_count
    (SpringOscillator.loopBody m.clearResults dt) dt T hdt
    (fun _ => rfl) (fun s => by simp [SpringOscillator.loopBody])
    { time := 0.0, position := m.clearResults.amplitude, velocity := 0.0,
      results := m.clearResults.results } (by norm_num) rfl
  refine ⟨{ m.clearResults with results := s'.results }, fun extra => ?_, hlen⟩
  simp only [SpringOscillator.simulate, hrun extra, Option.map_some']

/-- C13: for SpringOscillator with mass ≠ 0, whenever `simulate` returns, its
result sequence follows the recurrence from the initial state (time 0, position
`amplitude`, velocity 0): a record produced from the state `before` (the initial
state or the previous record) has auxiliary
`a = (-stiffness * x - damping * v) / mass`, velocity `v + a * timeStep`,
position `x + v' * timeStep` with the new velocity `v'`, and time
`t + timeStep`.  With `timeStep > 0` it does return. -/
theorem spring_follows_recurrence (m : SpringOscillator) (timeStep totalTime : ℚ)
    (_hmass : m.mass ≠ 0) :
    (∀ (fuel : Nat) (m' : SpringOscillator),
      m.simulate fuel timeStep totalTime = some m' →
      List.Chain
        (fun before record : SimulationResult =>
          record.other_param
              = (-m.stiffness * before.position - m.damping * before.velocity) / m.mass ∧
            record.velocity = before.velocity + record.other_param * timeStep ∧
            record.position = before.position + record.velocity * timeStep ∧
            record.time = before.time + timeStep)
        { time := 0, position := m.amplitude, velocity := 0, other_param := 0 }
        m'.getResults) ∧
    (0 < timeStep →
      ∃ m' : SpringOscillator, ∀ extra : Nat,
        m.simulate (⌊totalTime / timeStep⌋₊ + 2 + extra) timeStep totalTime = some m') := by
  refine ⟨fun fuel m' h => ?_, fun hdt => ?_⟩
  · simp only [SpringOscillator.simulate, Option.map_eq_some'] at h
    obtain ⟨s', hs', rfl⟩ := h
    have hinv := whileLoop_invariant _ _ _ _
      (fun s hs _ => trajectory_invariant
        (fun before record : SimulationResult =>
          record.other_param
              = (-m.stiffness * before.position - m.damping * before.velocity) / m.mass ∧
            record.velocity = before.velocity + record.other_param * timeStep ∧
            record.position = before.position + record.velocity * timeStep ∧
            record.time = before.time + timeStep)
        { time := 0, position := m.amplitude, velocity := 0, other_param := 0 }
        (SpringOscillator.loopBody m.clearResults timeStep)
        (fun s p ht hx hv => ⟨_, rfl, by
          refine ⟨⟨?_, ?_, ?_, ?_⟩, rfl, rfl, rfl⟩ <;>
            simp only [SpringOscillator.loopBody, SpringOscillator.clearResults,
              ht, hx, hv]
          ring⟩) s hs) fuel _ s'
      (by
        refine ⟨List.Chain.nil, ?_, rfl, ?_⟩ <;>
          simp only [SpringOscillator.clearResults, List.getLastD_nil] <;> norm_num) hs'
    exact hinv.1
  · obtain ⟨m', hrun, _⟩ := spring_simulate_returns m timeStep totalTime hdt
    exact ⟨m', hrun⟩

/-- Witness for C13: mass 1, stiffness 1, no damping, amplitude 1, step 1 up to
time 1; two records. -/
theorem spring_follows_recurrence_witness :
    (1 : ℚ) ≠ 0 ∧
    SpringOscillator.simulate 5 ⟨1, 1, 0, 1, []⟩ 1 1
        = some ⟨1, 1, 0, 1, [⟨1, 0, -1, -1⟩, ⟨2, -1, -1, 0⟩]⟩ ∧
    List.Chain
      (fun before record : SimulationResult =>
        record.other_param = (-1 * before.position - 0 * before.velocity) / 1 ∧
          record.velocity = before.velocity + record.other_param * 1 ∧
          record.position = before.position + record.velocity * 1 ∧
          record.time = before.time + 1)
      { time := 0, position := 1, velocity := 0, other_param := 0 }
      [⟨1, 0, -1, -1⟩, ⟨2, -1, -1, 0⟩] :=
  ⟨by norm_num, by decide!,
    (spring_follows_recurrence ⟨1, 1, 0, 1, []⟩ 1 1 (by norm_num)).1 5
      ⟨1, 1, 0, 1, [⟨1, 0, -1, -1⟩, ⟨2, -1, -1, 0⟩]⟩ (by decide!)⟩

/-- The state of the loop of `ChargeInField::simulate` after `k` rounds, in
closed form. -/
theorem charge_iterate (m : ChargeInField) (dt : ℚ) (s : LoopState) (k : Nat) :
    (ChargeInField.loopBody m dt)^[k] s
      = { time := s.time + k * dt,
          position := s.position + k * s.velocity * dt
            + m.charge * m.eField / m.mass * dt ^ 2 * k * (k + 1) / 2,
          velocity := s.velocity + k * (m.charge * m.eField / m.mass) * dt,
          results := s.results ++ (List.range k).map fun (i : Nat) =>
            ({ time := s.time + (i + 1) * dt,
               position := s.position + (i + 1) * s.velocity * dt
                 + m.charge * m.eField / m.mass * dt ^ 2 * (i + 1) * (i + 1 + 1) / 2,
               velocity := s.velocity + (i + 1) * (m.charge * m.eField / m.mass) * dt,
               other_param := m.charge * m.eField / m.mass } : SimulationResult) } := by
  induction k with
  | zero => cases s; simp
  | succ k ih =>
    rw [Function.iterate_succ_apply', ih]
    simp only [ChargeInField.loopBody, List.range_succ, List.map_append, List.map_cons,
      List.map_nil, List.append_assoc, LoopState.mk.injEq, List.append_cancel_left_eq,
      List.cons.injEq, SimulationResult.mk.injEq, and_true]
    push_cast
    refine ⟨?_, ?_, ?_, ?_, ?_, ?_⟩ <;> ring

/-- C14: for ChargeInField with mass ≠ 0 and `timeStep > 0`, `simulate` returns
(with any fuel of at least `⌊totalTime / timeStep⌋ + 2`), and the n-th record
(1-based) has auxiliary `a = charge * eField / mass`, time `n * timeStep`,
velocity `initialVel + n * a * timeStep` and position
`n * initialVel * timeStep + a * timeStep ^ 2 * n * (n + 1) / 2`.  There are
`⌊totalTime / timeStep⌋ + 1` records when `totalTime ≥ 0` and none otherwise. -/
theorem charge_closed_form (m : ChargeInField) (timeStep totalTime : ℚ)
    (_hmass : m.mass ≠ 0) (hdt : 0 < timeStep) :
    ∃ m' : ChargeInField,
      (∀ extra : Nat,
        m.simulate (⌊totalTime / timeStep⌋₊ + 2 + extra) timeStep totalTime = some m') ∧
      m'.getResults.length = (if 0 ≤ totalTime then ⌊totalTime / timeStep⌋₊ + 1 else 0) ∧
      (∀ (n : Nat) (h₁ : 1 ≤ n) (h₂ : n ≤ m'.getResults.length),
        m'.getResults[n - 1]
          = { time := n * timeStep,
              position := n * m.initialVel * timeStep
                + (m.charge * m.eField / m.mass) * timeStep ^ 2 * n * (n + 1) / 2,
              velocity := m.initialVel + n * (m.charge * m.eField / m.mass) * timeStep,
              other_param := m.charge * m.eField / m.mass }) := by
  have hexit := timeLoop_exit (ChargeInField.loopBody m.clearResults timeStep) timeStep
    totalTime hdt (fun _ => rfl)
    { time := 0.0, position := 0.0, velocity := m.clearResults.initialVel,
      results := m.clearResults.results } (by norm_num)
  have hres : ∀ k : Nat, ((ChargeInField.loopBody m.clearResults timeStep)^[k]
      { time := 0.0, position := 0.0, velocity := m.clearResults.initialVel,
        results := m.clearResults.results }).results
      = (List.range k).map fun (i : Nat) =>
          ({ time := (i + 1) * timeStep,
             position := (i + 1) * m.initialVel * timeStep
               + (m.charge * m.eField / m.mass) * timeStep ^ 2 * (i + 1) * (i + 1 + 1) / 2,
             velocity := m.initialVel + (i + 1) * (m.charge * m.eField / m.mass) * timeStep,
             other_param := m.charge * m.eField / m.mass } : SimulationResult) := by
    intro k
    rw [charge_iterate]
    simp only [ChargeInField.clearResults, List.nil_append]
    apply List.map_congr_left
    intro i _
    norm_num
  refine ⟨{ m.clearResults with results :=
      ((ChargeInField.loopBody m.clearResults timeStep)^[
        if 0 ≤ totalTime then ⌊totalTime / timeStep⌋₊ + 1 else 0]
        { time := 0.0, position := 0.0, velocity := m.clearResults.initialVel,
          results := m.clearResults.results }).results }, fun extra => ?_, ?_, ?_⟩
  · simp only [ChargeInField.simulate]
    rw [hexit extra]
    rfl
  · simp only [ChargeInField.getResults, hres, List.length_map, List.length_range]
  · intro n h₁ h₂
    simp only [ChargeInField.getResults, hres, List.getElem_map, List.getElem_range]
    have hn : ((n - 1 : ℕ) : ℚ) + 1 = n := by
      rw [Nat.cast_sub h₁]; simp
    simp only [hn]

/-- Witness for C14: charge 2, mass 1, field 3, initial velocity 1, step 1/2 up
to time 1. -/
theorem charge_closed_form_witness :
    (1 : ℚ) ≠ 0 ∧ (0 : ℚ) < 1 / 2 ∧
    ∃ m' : ChargeInField,
      (∀ extra : Nat,
        ChargeInField.simulate (⌊(1 : ℚ) / (1 / 2)⌋₊ + 2 + extra) ⟨2, 1, 3, 1, []⟩ (1 / 2) 1
          = some m') ∧
      m'.getResults.length = (if (0 : ℚ) ≤ 1 then ⌊(1 : ℚ) / (1 / 2)⌋₊ + 1 else 0) ∧
      (∀ (n : Nat) (h₁ : 1 ≤ n) (h₂ : n ≤ m'.getResults.length),
        m'.getResults[n - 1]
          = { time := n * (1 / 2),
              position := n * 1 * (1 / 2) + (2 * 3 / 1) * (1 / 2) ^ 2 * n * (n + 1) / 2,
              velocity := 1 + n * (2 * 3 / 1) * (1 / 2),
              other_param := 2 * 3 / 1 }) :=
  ⟨by norm_num, by norm_num,
    charge_closed_form ⟨2, 1, 3, 1, []⟩ (1 / 2) 1 (by norm_num) (by norm_num)⟩



/-! ## Time stamps -/

/-- One round of a body that adds `dt` to `time` and pushes a record stamped
`time + c * dt` keeps the stamps of the records at `(i + c) * dt`. -/
theorem times_invariant (body : LoopState → LoopState) (dt c : ℚ)
    (hbody : ∀ s : LoopState, ∃ r : SimulationResult,
      (body s).results = s.results ++ [r] ∧ r.time = s.time + c * dt ∧
        (body s).time = s.time + dt)
    (s : LoopState)
    (hs : s.time = (s.results.length : ℚ) * dt ∧
      ∀ (i : Nat) (h : i < s.results.length), (s.results[i]).time = (i + c) * dt) :
    (body s).time = ((body s).results.length : ℚ) * dt ∧
      ∀ (i : Nat) (h : i < (body s).results.length),
        ((body s).results[i]).time = (i + c) * dt := by
  obtain ⟨r, hr, hrt, ht⟩ := hbody s
  obtain ⟨hs1, hs2⟩ := hs
  refine ⟨?_, ?_⟩
  · rw [ht, hr, hs1, List.length_append, List.length_singleton]
    push_cast
    ring
  · intro i h
    simp only [hr] at h ⊢
    by_cases hi : i < s.results.length
    · rw [List.getElem_append_left hi]
      exact hs2 i hi
    · have hlen : i = s.results.length := by
        rw [List.length_append, List.length_singleton] at h
        omega
      rw [List.getElem_concat_length _ _ _ hlen, hrt, hs1, hlen]
      ring

/-- Time stamps of the records of a time-bounded loop started at time 0 with no
records and `dt > 0`: consecutive stamps differ by `dt`, stamps are in
non-decreasing order, and none is negative. -/
theorem timeStamps_of_loop (cond : LoopState → Bool) (body : LoopState → LoopState)
    (brk : LoopState → Bool) (dt T c : ℚ) (hdt : 0 < dt) (hc : 0 ≤ c)
    (hcond : ∀ s, cond s = true → s.time ≤ T)
    (hbody : ∀ s : LoopState, ∃ r : SimulationResult,
      (body s).results = s.results ++ [r] ∧ r.time = s.time + c * dt ∧
        (body s).time = s.time + dt)
    (s : LoopState) (hs : s.time = 0) (hs' : s.results = []) :
    ∃ s' : LoopState,
      (∀ extra : Nat, whileLoop cond body brk (⌊T / dt⌋₊ + 2 + extra) s = some s') ∧
      (∀ (i : Nat) (h : i + 1 < s'.results.length),
        (s'.results[i + 1]).time = (s'.results[i]).time + dt) ∧
      (∀ (i j : Nat) (hij : i ≤ j) (hj : j < s'.results.length),
        (s'.results[i]).time ≤ (s'.results[j]).time) ∧
      (∀ (i : Nat) (h : i < s'.results.length), 0 ≤ (s'.results[i]).time) := by
  obtain ⟨s', hrun, _⟩ := timeBounded_loop_exits_from_zero cond body brk dt T hdt hcond
    (fun s => (hbody s).choose_spec.2.2)
    (fun s => by rw [(hbody s).choose_spec.1, List.length_append, List.length_singleton])
    s hs
  have hinv := whileLoop_invariant cond body brk _
    (fun s hs _ => times_invariant body dt c hbody s hs) _ s s'
    (by
      refine ⟨by rw [hs, hs']; simp, fun i h => ?_⟩
      rw [hs'] at h
      exact absurd h (Nat.not_lt_zero i)) (hrun 0)
  obtain ⟨_, htimes⟩ := hinv
  refine ⟨s', hrun, ?_, ?_, ?_⟩
  · intro i h
    rw [htimes (i + 1) h, htimes i (by omega)]
    push_cast
    ring
  · intro i j hij hj
    rw [htimes i (by omega), htimes j hj]
    have : (i : ℚ) ≤ j := by exact_mod_cast hij
    exact mul_le_mul_of_nonneg_right (by linarith) hdt.le
  · intro i h
    rw [htimes i h]
    have : (0 : ℚ) ≤ i := Nat.cast_nonneg i
    exact mul_nonneg (by linarith) hdt.le

/-- C15: for each of the four models, any parameters, `timeStep > 0` and any
`totalTime`, `simulate` returns and the time fields of its result sequence are
non-decreasing, consecutive records differing in time by exactly `timeStep`, and
every time is ≥ 0. -/
theorem simulate_times_increase_by_step (timeStep totalTime : ℚ) (hdt : 0 < timeStep) :
    (∀ m : FallingBodyWithDrag, ∃ m' : FallingBodyWithDrag,
      (∀ extra : Nat,
        m.simulate (⌊totalTime / timeStep⌋₊ + 2 + extra) timeStep totalTime = some m') ∧
      (∀ (i : Nat) (h : i + 1 < m'.getResults.length),
        (m'.getResults[i + 1]).time = (m'.getResults[i]).time + timeStep) ∧
      (∀ (i j : Nat) (hij : i ≤ j) (hj : j < m'.getResults.length),
        (m'.getResults[i]).time ≤ (m'.getResults[j]).time) ∧
      (∀ (i : Nat) (h : i < m'.getResults.length), 0 ≤ (m'.getResults[i]).time)) ∧
    (∀ m : SpringOscillator, ∃ m' : SpringOscillator,
      (∀ extra : Nat,
        m.simulate (⌊totalTime / timeStep⌋₊ + 2 + extra) timeStep totalTime = some m') ∧
      (∀ (i : Nat) (h : i + 1 < m'.getResults.length),
        (m'.getResults[i + 1]).time = (m'.getResults[i]).time + timeStep) ∧
      (∀ (i j : Nat) (hij : i ≤ j) (hj : j < m'.getResults.length),
        (m'.getResults[i]).time ≤ (m'.getResults[j]).time) ∧
      (∀ (i : Nat) (h : i < m'.getResults.length), 0 ≤ (m'.getResults[i]).time)) ∧
    (∀ m : ConstantAcceleration, ∃ m' : ConstantAcceleration,
      (∀ extra : Nat,
        m.simulate (⌊totalTime / timeStep⌋₊ + 2 + extra) timeStep totalTime = some m') ∧
      (∀ (i : Nat) (h : i + 1 < m'.getResults.length),
        (m'.getResults[i + 1]).time = (m'.getResults[i]).time + timeStep) ∧
      (∀ (i j : Nat) (hij : i ≤ j) (hj : j < m'.getResults.length),
        (m'.getResults[i]).time ≤ (m'.getResults[j]).time) ∧
      (∀ (i : Nat) (h : i < m'.getResults.length), 0 ≤ (m'.getResults[i]).time)) ∧
    (∀ m : ChargeInField, ∃ m' : ChargeInField,
      (∀ extra : Nat,
        m.simulate (⌊totalTime / timeStep⌋₊ + 2 + extra) timeStep totalTime = some m') ∧
      (∀ (i : Nat) (h : i + 1 < m'.getResults.length),
        (m'.getResults[i + 1]).time = (m'.getResults[i]).time + timeStep) ∧
      (∀ (i j : Nat) (hij : i ≤ j) (hj : j < m'.getResults.length),
        (m'.getResults[i]).time ≤ (m'.getResults[j]).time) ∧
      (∀ (i : Nat) (h : i < m'.getResults.length), 0 ≤ (m'.getResults[i]).time)) := by
  refine ⟨fun m => ?_, fun m => ?_, fun m => ?_, fun m => ?_⟩
  · obtain ⟨s', hrun, h1, h2, h3⟩ := timeStamps_of_loop
      (FallingBodyWithDrag.loopCond totalTime)
      (FallingBodyWithDrag.loopBody m.clearResults timeStep)
      FallingBodyWithDrag.loopBreak timeStep totalTime 1 hdt (by norm_num)
      (fallingBody_loopCond_time totalTime)
      (fun s => ⟨_, rfl, by simp [FallingBodyWithDrag.loopBody], rfl⟩)
      { time := 0.0, position := m.clearResults.height, velocity := 0.0,
        results := m.clearResults.results } (by norm_num) rfl
    refine ⟨{ m.clearResults with results := s'.results }, fun extra => ?_, h1, h2, h3⟩
    simp only [FallingBodyWithDrag.simulate, hrun extra, Option.map_some']
  · obtain ⟨s', hrun, h1, h2, h3⟩ := timeStamps_of_loop
      (timeCond totalTime) (SpringOscillator.loopBody m.clearResults timeStep)
      noBreak timeStep totalTime 1 hdt (by norm_num) (timeCond_time totalTime)
      (fun s => ⟨_, rfl, by simp [SpringOscillator.loopBody], rfl⟩)
      { time := 0.0, position := m.clearResults.amplitude, velocity := 0.0,
        results := m.clearResults.results } (by norm_num) rfl
    refine ⟨{ m.clearResults with results := s'.results }, fun extra => ?_, h1, h2, h3⟩
    simp only [SpringOscillator.simulate, hrun extra, Option.map_some']
  · obtain ⟨s', hrun, h1, h2, h3⟩ := timeStamps_of_loop
      (timeCond totalTime) (ConstantAcceleration.loopBody m.clearResults timeStep)
      noBreak timeStep totalTime 0 hdt (le_refl 0) (timeCond_time totalTime)
      (fun s => ⟨_, rfl, by simp [ConstantAcceleration.loopBody], rfl⟩)
      { time := 0.0, position := 0, velocity := 0,
        results := m.clearResults.results } (by norm_num) rfl
    refine ⟨{ m.clearResults with results := s'.results }, fun extra => ?_, h1, h2, h3⟩
    simp only [ConstantAcceleration.simulate, hrun extra, Option.map_some']
  · obtain ⟨s', hrun, h1, h2, h3⟩ := timeStamps_of_loop
      (timeCond totalTime) (ChargeInField.loopBody m.clearResults timeStep)
      noBreak timeStep totalTime 1 hdt (by norm_num) (timeCond_time totalTime)
      (fun s => ⟨_, rfl, by simp [ChargeInField.loopBody], rfl⟩)
      { time := 0.0, position := 0.0, velocity := m.clearResults.initialVel,
        results := m.clearResults.results } (by norm_num) rfl
    refine ⟨{ m.clearResults with results := s'.results }, fun extra => ?_, h1, h2, h3⟩
    simp only [ChargeInField.simulate, hrun extra, Option.map_some']

/-- Witness for C15: the default FallingBodyWithDrag with step 1/2 up to time 2. -/
theorem simulate_times_increase_by_step_witness :
    (0 : ℚ) < 1 / 2 ∧
    ∃ m' : FallingBodyWithDrag,
      (∀ extra : Nat,
        FallingBodyWithDrag.new.simulate (⌊(2 : ℚ) / (1 / 2)⌋₊ + 2 + extra) (1 / 2) 2
          = some m') ∧
      (∀ (i : Nat) (h : i + 1 < m'.getResults.length),
        (m'.getResults[i + 1]).time = (m'.getResults[i]).time + 1 / 2) ∧
      (∀ (i j : Nat) (hij : i ≤ j) (hj : j < m'.getResults.length),
        (m'.getResults[i]).time ≤ (m'.getResults[j]).time) ∧
      (∀ (i : Nat) (h : i < m'.getResults.length), 0 ≤ (m'.getResults[i]).time) :=
  ⟨by norm_num,
    (simulate_times_increase_by_step (1 / 2) 2 (by norm_num)).1 FallingBodyWithDrag.new⟩

/-! ## SpringOscillator: energy -/

/-- One round of the undamped spring loop keeps the modified energy
`0.5 m v² + 0.5 k x² - 0.5 k dt x v`. -/
theorem spring_energy_step (m : SpringOscillator) (dt : ℚ) (hdamp : m.damping = 0)
    (hmass : m.mass ≠ 0) (s : LoopState) :
    0.5 * m.mass * (SpringOscillator.loopBody m dt s).velocity ^ 2
        + 0.5 * m.stiffness * (SpringOscillator.loopBody m dt s).position ^ 2
        - 0.5 * m.stiffness * dt * (SpringOscillator.loopBody m dt s).position
          * (SpringOscillator.loopBody m dt s).velocity
      = 0.5 * m.mass * s.velocity ^ 2 + 0.5 * m.stiffness * s.position ^ 2
        - 0.5 * m.stiffness * dt * s.position * s.velocity := by
  simp only [SpringOscillator.loopBody, hdamp]
  field_simp
  ring

/-- Every record of an undamped SpringOscillator run has the modified energy of
the initial state. -/
theorem spring_energy_invariant (m : SpringOscillator) (dt T : ℚ) (hdamp : m.damping = 0)
    (hmass : m.mass ≠ 0) (fuel : Nat) (m' : SpringOscillator)
    (h : m.simulate fuel dt T = some m') :
    ∀ r ∈ m'.results,
      0.5 * m.mass * r.velocity ^ 2 + 0.5 * m.stiffness * r.position ^ 2
          - 0.5 * m.stiffness * dt * r.position * r.velocity
        = 0.5 * m.stiffness * m.amplitude ^ 2 := by
  simp only [SpringOscillator.simulate, Option.map_eq_some'] at h
  obtain ⟨s', hs', rfl⟩ := h
  have hinv := whileLoop_invariant (timeCond T)
    (SpringOscillator.loopBody m.clearResults dt) noBreak
    (fun s : LoopState =>
      0.5 * m.mass * s.velocity ^ 2 + 0.5 * m.stiffness * s.position ^ 2
          - 0.5 * m.stiffness * dt * s.position * s.velocity
        = 0.5 * m.stiffness * m.amplitude ^ 2 ∧
      ∀ r ∈ s.results,
        0.5 * m.mass * r.velocity ^ 2 + 0.5 * m.stiffness * r.position ^ 2
            - 0.5 * m.stiffness * dt * r.position * r.velocity
          = 0.5 * m.stiffness * m.amplitude ^ 2)
    (fun s hs _ => by
      have hstep := spring_energy_step m.clearResults dt hdamp hmass s
      simp only [SpringOscillator.clearResults] at hstep
      have hnew := hstep.trans hs.1
      refine ⟨hnew, fun r hr => ?_⟩
      have hmem : r ∈ s.results ∨
          r = ⟨(SpringOscillator.loopBody m.clearResults dt s).time,
            (SpringOscillator.loopBody m.clearResults dt s).position,
            (SpringOscillator.loopBody m.clearResults dt s).velocity,
            (-m.stiffness * s.position + -m.damping * s.velocity) / m.mass⟩ := by
        simpa [SpringOscillator.loopBody, SpringOscillator.clearResults] using hr
      rcases hmem with hmem | rfl
      · exact hs.2 r hmem
      · exact hnew)
    fuel _ s'
    (by
      refine ⟨?_, fun r hr => ?_⟩
      · simp only [SpringOscillator.clearResults]; norm_num
      · simp [SpringOscillator.clearResults] at hr) hs'
  exact hinv.2

/-- C16: for SpringOscillator with damping = 0, mass > 0, stiffness ≥ 0 and
`timeStep > 0`, `simulate` returns and the mechanical energy
`E = 0.5 * mass * velocity ^ 2 + 0.5 * stiffness * position ^ 2` of every record
stays, whatever the number of steps, within a relative drift of the initial
energy `E0 = 0.5 * stiffness * amplitude ^ 2`:
`(E - E0) ^ 2 ≤ (stiffness * timeStep ^ 2 / (4 * mass)) * E ^ 2`. -/
theorem spring_energy_drift_bounded (m : SpringOscillator) (timeStep totalTime : ℚ)
    (hdamp : m.damping = 0) (hmass : 0 < m.mass) (hk : 0 ≤ m.stiffness)
    (hdt : 0 < timeStep) :
    ∃ m' : SpringOscillator,
      (∀ extra : Nat,
        m.simulate (⌊totalTime / timeStep⌋₊ + 2 + extra) timeStep totalTime = some m') ∧
      ∀ r ∈ m'.getResults,
        ((0.5 * m.mass * r.velocity ^ 2 + 0.5 * m.stiffness * r.position ^ 2)
            - 0.5 * m.stiffness * m.amplitude ^ 2) ^ 2
          ≤ (m.stiffness * timeStep ^ 2 / (4 * m.mass))
            * (0.5 * m.mass * r.velocity ^ 2 + 0.5 * m.stiffness * r.position ^ 2) ^ 2 := by
  obtain ⟨m', hrun, _⟩ := spring_simulate_returns m timeStep totalTime hdt
  refine ⟨m', hrun, fun r hr => ?_⟩
  have hH := spring_energy_invariant m timeStep totalTime hdamp hmass.ne' _ m' (hrun 0) r hr
  have hE : (0.5 * m.mass * r.velocity ^ 2 + 0.5 * m.stiffness * r.position ^ 2)
      - 0.5 * m.stiffness * m.amplitude ^ 2
      = 0.5 * m.stiffness * timeStep * r.position * r.velocity := by linarith
  rw [hE]
  have hdiff : (m.stiffness * timeStep ^ 2 / (4 * m.mass))
        * (0.5 * m.mass * r.velocity ^ 2 + 0.5 * m.stiffness * r.position ^ 2) ^ 2
      - (0.5 * m.stiffness * timeStep * r.position * r.velocity) ^ 2
      = (m.stiffness * timeStep ^ 2 / (4 * m.mass))
        * ((m.mass * r.velocity ^ 2 - m.stiffness * r.position ^ 2) / 2) ^ 2 := by
    have := hmass.ne'
    field_simp
    ring
  have hnn : 0 ≤ (m.stiffness * timeStep ^ 2 / (4 * m.mass))
        * ((m.mass * r.velocity ^ 2 - m.stiffness * r.position ^ 2) / 2) ^ 2 :=
    mul_nonneg (div_nonneg (mul_nonneg hk (sq_nonneg _)) (by linarith)) (sq_nonneg _)
  linarith

/-- Witness for C16: mass 2, stiffness 3, no damping, amplitude 1, step 1/4 up to
time 1. -/
theorem spring_energy_drift_bounded_witness :
    (0 : ℚ) = 0 ∧ (0 : ℚ) < 2 ∧ (0 : ℚ) ≤ 3 ∧ (0 : ℚ) < 1 / 4 ∧
    ∃ m' : SpringOscillator,
      (∀ extra : Nat,
        SpringOscillator.simulate (⌊(1 : ℚ) / (1 / 4)⌋₊ + 2 + extra) ⟨2, 3, 0, 1, []⟩ (1 / 4) 1
          = some m') ∧
      ∀ r ∈ m'.getResults,
        ((0.5 * 2 * r.velocity ^ 2 + 0.5 * 3 * r.position ^ 2) - 0.5 * 3 * (1 : ℚ) ^ 2) ^ 2
          ≤ (3 * (1 / 4) ^ 2 / (4 * 2))
            * (0.5 * 2 * r.velocity ^ 2 + 0.5 * 3 * r.position ^ 2) ^ 2 :=
  ⟨rfl, by norm_num, by norm_num, by norm_num,
    spring_energy_drift_bounded ⟨2, 3, 0, 1, []⟩ (1 / 4) 1 rfl (by norm_num) (by norm_num)
      (by norm_num)⟩

/-- C20: for SpringOscillator with damping = 0 and mass ≠ 0, and any stiffness,
amplitude, `timeStep` and `totalTime`, whenever `simulate` returns, every record
satisfies `0.5 * mass * velocity ^ 2 + 0.5 * stiffness * position ^ 2
- 0.5 * stiffness * timeStep * position * velocity = 0.5 * stiffness * amplitude ^ 2`:
updating the velocity first and the position with the new velocity conserves this
modified energy exactly.  With `timeStep > 0` it does return. -/
theorem spring_modified_energy_conserved (m : SpringOscillator) (timeStep totalTime : ℚ)
    (hdamp : m.damping = 0) (hmass : m.mass ≠ 0) :
    (∀ (fuel : Nat) (m' : SpringOscillator),
      m.simulate fuel timeStep totalTime = some m' →
      ∀ r ∈ m'.getResults,
        0.5 * m.mass * r.velocity ^ 2 + 0.5 * m.stiffness * r.position ^ 2
            - 0.5 * m.stiffness * timeStep * r.position * r.velocity
          = 0.5 * m.stiffness * m.amplitude ^ 2) ∧
    (0 < timeStep →
      ∃ m' : SpringOscillator, ∀ extra : Nat,
        m.simulate (⌊totalTime / timeStep⌋₊ + 2 + extra) timeStep totalTime = some m') := by
  refine ⟨fun fuel m' h => spring_energy_invariant m timeStep totalTime hdamp hmass fuel m' h,
    fun hdt => ?_⟩
  obtain ⟨m', hrun, _⟩ := spring_simulate_returns m timeStep totalTime hdt
  exact ⟨m', hrun⟩

/-- Witness for C20: mass 1, stiffness 1, no damping, amplitude 1, step 1 up to
time 1; both records have modified energy 1/2. -/
theorem spring_modified_energy_conserved_witness :
    (0 : ℚ) = 0 ∧ (1 : ℚ) ≠ 0 ∧
    SpringOscillator.simulate 5 ⟨1, 1, 0, 1, []⟩ 1 1
        = some ⟨1, 1, 0, 1, [⟨1, 0, -1, -1⟩, ⟨2, -1, -1, 0⟩]⟩ ∧
    ∀ r ∈ SpringOscillator.getResults ⟨1, 1, 0, 1, [⟨1, 0, -1, -1⟩, ⟨2, -1, -1, 0⟩]⟩,
      0.5 * 1 * r.velocity ^ 2 + 0.5 * 1 * r.position ^ 2
          - 0.5 * 1 * 1 * r.position * r.velocity
        = 0.5 * 1 * (1 : ℚ) ^ 2 :=
  ⟨rfl, by norm_num, by decide!,
    (spring_modified_energy_conserved ⟨1, 1, 0, 1, []⟩ 1 1 rfl (by norm_num)).1 5
      ⟨1, 1, 0, 1, [⟨1, 0, -1, -1⟩, ⟨2, -1, -1, 0⟩]⟩ (by decide!)⟩

/-! ## Loading a file in the session -/

/-- C17: the claim says that after a successful load the active result sequence
of the session is the loaded sequence `L`, with no re-simulation.  Option 6 of
`runMainMenu` drops what `loadFromFile` returned: for a file holding the single
record (0, 5, 5, 5) the load succeeds with `L` that record, and for every
non-empty file and every prior session the new session holds (with any fuel of at
least 12) a default ConstantAcceleration freshly simulated with step 0.1 up to
time 1.0, whose eleven records are what display and save then read, not `L`. -/
theorem load_replaces_records_by_default_simulation :loadFromFile (some [{ time := 0, position := 5, velocity := 5, other_param := 5 }]) []
      = (true, [{ time := 0, position := 5, velocity := 5, other_param := 5 }]) ∧
    (∀ (extra : Nat) (s : Session) (first : SimulationResult)
        (rest : List SimulationResult),
      runMainMenuCase6 (12 + extra) s (some (first :: rest))
        = some
            { currentModel := some (.constantAcceleration
                { initialPos := 0.0, initialVel := 0.0, acceleration := 1.0,
                  results :=
                    [⟨0, 0, 0, 1⟩, ⟨0.1, 0.005, 0.1, 1⟩, ⟨0.2, 0.02, 0.2, 1⟩,
                     ⟨0.3, 0.045, 0.3, 1⟩, ⟨0.4, 0.08, 0.4, 1⟩, ⟨0.5, 0.125, 0.5, 1⟩,
                     ⟨0.6, 0.18, 0.6, 1⟩, ⟨0.7, 0.245, 0.7, 1⟩, ⟨0.8, 0.32, 0.8, 1⟩,
                     ⟨0.9, 0.405, 0.9, 1⟩, ⟨1, 0.5, 1, 1⟩] }),
              hasModel := true, hasResults := true }) ∧
    Session.activeResults
        { currentModel := some (.constantAcceleration
            { initialPos := 0.0, initialVel := 0.0, acceleration := 1.0,
              results :=
                [⟨0, 0, 0, 1⟩, ⟨0.1, 0.005, 0.1, 1⟩, ⟨0.2, 0.02, 0.2, 1⟩,
                 ⟨0.3, 0.045, 0.3, 1⟩, ⟨0.4, 0.08, 0.4, 1⟩, ⟨0.5, 0.125, 0.5, 1⟩,
                 ⟨0.6, 0.18, 0.6, 1⟩, ⟨0.7, 0.245, 0.7, 1⟩, ⟨0.8, 0.32, 0.8, 1⟩,
                 ⟨0.9, 0.405, 0.9, 1⟩, ⟨1, 0.5, 1, 1⟩] }),
          hasModel := true, hasResults := true }
      ≠ some [{ time := 0, position := 5, velocity := 5, other_param := 5 }] := by
  refine ⟨rfl, fun extra s first rest => ?_, by decide!⟩
  have h12 : ConstantAcceleration.simulate 12 ConstantAcceleration.new 0.1 1.0
      = some { initialPos := 0.0, initialVel := 0.0, acceleration := 1.0,
               results :=
                 [⟨0, 0, 0, 1⟩, ⟨0.1, 0.005, 0.1, 1⟩, ⟨0.2, 0.02, 0.2, 1⟩,
                  ⟨0.3, 0.045, 0.3, 1⟩, ⟨0.4, 0.08, 0.4, 1⟩, ⟨0.5, 0.125, 0.5, 1⟩,
                  ⟨0.6, 0.18, 0.6, 1⟩, ⟨0.7, 0.245, 0.7, 1⟩, ⟨0.8, 0.32, 0.8, 1⟩,
                  ⟨0.9, 0.405, 0.9, 1⟩, ⟨1, 0.5, 1, 1⟩] } := by decide!
  have hrun := map_whileLoop_mono _ _ _ _ 12 extra _ _ h12
  have hsim : ConstantAcceleration.simulate (12 + extra) ConstantAcceleration.new 0.1 1.0
      = some { initialPos := 0.0, initialVel := 0.0, acceleration := 1.0,
               results :=
                 [⟨0, 0, 0, 1⟩, ⟨0.1, 0.005, 0.1, 1⟩, ⟨0.2, 0.02, 0.2, 1⟩,
                  ⟨0.3, 0.045, 0.3, 1⟩, ⟨0.4, 0.08, 0.4, 1⟩, ⟨0.5, 0.125, 0.5, 1⟩,
                  ⟨0.6, 0.18, 0.6, 1⟩, ⟨0.7, 0.245, 0.7, 1⟩, ⟨0.8, 0.32, 0.8, 1⟩,
                  ⟨0.9, 0.405, 0.9, 1⟩, ⟨1, 0.5, 1, 1⟩] } := hrun
  simp only [runMainMenuCase6, loadFromFile, List.isEmpty_cons, Bool.not_false, if_true, hsim,
    Option.map_some']

/-! ## Non-positive and positive time steps -/

/-- How a loop exits: either its condition fails at once, or after a round of
the body entered from a state `t`, through the `break` or through the condition.
An invariant `P` of the body holds in `t`. -/
theorem whileLoop_exit {σ : Type} (cond : σ → Bool) (body : σ → σ) (brk : σ → Bool)
    (P : σ → Prop) (hstep : ∀ s, P s → cond s = true → P (body s)) (fuel : Nat) :
    ∀ s s' : σ, P s → whileLoop cond body brk fuel s = some s' →
      (cond s = false ∧ s' = s) ∨
      (∃ t : σ, P t ∧ cond t = true ∧ s' = body t ∧
        (brk (body t) = true ∨ cond (body t) = false)) := by
  induction fuel with
  | zero => intro s s' _ h; simp [whileLoop] at h
  | succ fuel ih =>
    intro s s' hs h
    rw [whileLoop_succ] at h
    by_cases hc : cond s = true
    · rw [if_pos hc] at h
      by_cases hb : brk (body s) = true
      · rw [if_pos hb] at h
        cases h
        exact Or.inr ⟨s, hs, hc, rfl, Or.inl hb⟩
      · rw [if_neg hb] at h
        rcases ih (body s) s' (hstep s hs hc) h with ⟨hc', rfl⟩ | hex
        · exact Or.inr ⟨s, hs, hc, rfl, Or.inr hc'⟩
        · exact Or.inr hex
    · rw [if_neg hc] at h
      cases h
      exact Or.inl ⟨by simpa using hc, rfl⟩

/-- With `dt > 0`, `ConstantAcceleration::simulate` returns, with
`⌊T / dt⌋ + 1` records when `T ≥ 0` and none when `T < 0`. -/
theorem constantAcceleration_simulate_returns (m : ConstantAcceleration) (dt T : ℚ)
    (hdt : 0 < dt) :
    ∃ m' : ConstantAcceleration,
      (∀ extra : Nat, m.simulate (⌊T / dt⌋₊ + 2 + extra) dt T = some m') ∧
      m'.results.length = (if 0 ≤ T then ⌊T / dt⌋₊ + 1 else 0) := by
  obtain ⟨s', hrun, hlen⟩ := timeLoop_record_count
    (ConstantAcceleration.loopBody m.clearResults dt) dt T hdt
    (fun _ => rfl) (fun s => by simp [ConstantAcceleration.loopBody])
    { time := 0.0, position := 0, velocity := 0,
      results := m.clearResults.results } (by norm_num) rfl
  refine ⟨{ m.clearResults with results := s'.results }, fun extra => ?_, hlen⟩
  simp only [ConstantAcceleration.simulate, hrun extra, Option.map_some']

/-- With `dt > 0`, `ChargeInField::simulate` returns, with `⌊T / dt⌋ + 1`
records when `T ≥ 0` and none when `T < 0`. -/
theorem charge_simulate_returns (m : ChargeInField) (dt T : ℚ) (hdt : 0 < dt) :
    ∃ m' : ChargeInField,
      (∀ extra : Nat, m.simulate (⌊T / dt⌋₊ + 2 + extra) dt T = some m') ∧
      m'.results.length = (if 0 ≤ T then ⌊T / dt⌋₊ + 1 else 0) := by
  obtain ⟨s', hrun, hlen⟩ := timeLoop_record_count
    (ChargeInField.loopBody m.clearResults dt) dt T hdt
    (fun _ => rfl) (fun s => by simp [ChargeInField.loopBody])
    { time := 0.0, position := 0.0, velocity := m.clearResults.initialVel,
      results := m.clearResults.results } (by norm_num) rfl
  refine ⟨{ m.clearResults with results := s'.results }, fun extra => ?_, hlen⟩
  simp only [ChargeInField.simulate, hrun extra, Option.map_some']

/-- The bound on the number of records, as an integer. -/
theorem count_bound_arith (dt T : ℚ) (hdt : 0 < dt) (n : Nat)
    (hn : n ≤ (if 0 ≤ T then ⌊T / dt⌋₊ + 1 else 0)) :
    (0 ≤ T → (n : ℤ) ≤ ⌊T / dt⌋ + 1) ∧ (T < 0 → n = 0) := by
  refine ⟨fun hT => ?_, fun hT => ?_⟩
  · rw [if_pos hT] at hn
    have h1 : ((⌊T / dt⌋₊ : ℕ) : ℤ) = ⌊T / dt⌋ :=
      Int.natCast_floor_eq_floor (div_nonneg hT hdt.le)
    rw [← h1]
    exact_mod_cast hn
  · rw [if_neg (not_le.mpr hT)] at hn
    exact Nat.le_zero.mp hn

/-- C19: for each of the four models, any parameters, `timeStep > 0` and any
`totalTime`, `simulate` terminates (any fuel of at least
`⌊totalTime / timeStep⌋ + 2` is enough), and it produces at most
`⌊totalTime / timeStep⌋ + 1` records when `totalTime ≥ 0` and none when
`totalTime < 0`. -/
theorem simulate_terminates_with_bounded_count (timeStep totalTime : ℚ) (hdt : 0 < timeStep) :
    (∀ m : FallingBodyWithDrag, ∃ m' : FallingBodyWithDrag,
      (∀ extra : Nat,
        m.simulate (⌊totalTime / timeStep⌋₊ + 2 + extra) timeStep totalTime = some m') ∧
      (0 ≤ totalTime → (m'.getResults.length : ℤ) ≤ ⌊totalTime / timeStep⌋ + 1) ∧
      (totalTime < 0 → m'.getResults.length = 0)) ∧
    (∀ m : SpringOscillator, ∃ m' : SpringOscillator,
      (∀ extra : Nat,
        m.simulate (⌊totalTime / timeStep⌋₊ + 2 + extra) timeStep totalTime = some m') ∧
      (0 ≤ totalTime → (m'.getResults.length : ℤ) ≤ ⌊totalTime / timeStep⌋ + 1) ∧
      (totalTime < 0 → m'.getResults.length = 0)) ∧
    (∀ m : ConstantAcceleration, ∃ m' : ConstantAcceleration,
      (∀ extra : Nat,
        m.simulate (⌊totalTime / timeStep⌋₊ + 2 + extra) timeStep totalTime = some m') ∧
      (0 ≤ totalTime → (m'.getResults.length : ℤ) ≤ ⌊totalTime / timeStep⌋ + 1) ∧
      (totalTime < 0 → m'.getResults.length = 0)) ∧
    (∀ m : ChargeInField, ∃ m' : ChargeInField,
      (∀ extra : Nat,
        m.simulate (⌊totalTime / timeStep⌋₊ + 2 + extra) timeStep totalTime = some m') ∧
      (0 ≤ totalTime → (m'.getResults.length : ℤ) ≤ ⌊totalTime / timeStep⌋ + 1) ∧
      (totalTime < 0 → m'.getResults.length = 0)) := by
  refine ⟨fun m => ?_, fun m => ?_, fun m => ?_, fun m => ?_⟩
  · obtain ⟨m', hrun, hlen⟩ := fallingBody_simulate_returns m timeStep totalTime hdt
    exact ⟨m', hrun, count_bound_arith timeStep totalTime hdt _ hlen⟩
  · obtain ⟨m', hrun, hlen⟩ := spring_simulate_returns m timeStep totalTime hdt
    exact ⟨m', hrun, count_bound_arith timeStep totalTime hdt _ hlen.le⟩
  · obtain ⟨m', hrun, hlen⟩ := constantAcceleration_simulate_returns m timeStep totalTime hdt
    exact ⟨m', hrun, count_bound_arith timeStep totalTime hdt _ hlen.le⟩
  · obtain ⟨m', hrun, hlen⟩ := charge_simulate_returns m timeStep totalTime hdt
    exact ⟨m', hrun, count_bound_arith timeStep totalTime hdt _ hlen.le⟩

/-- Witness for C19: the default FallingBodyWithDrag with step 1/2 up to time
5/4. -/
theorem simulate_terminates_with_bounded_count_witness :
    (0 : ℚ) < 1 / 2 ∧
    ∃ m' : FallingBodyWithDrag,
      (∀ extra : Nat,
        FallingBodyWithDrag.new.simulate (⌊(5 / 4 : ℚ) / (1 / 2)⌋₊ + 2 + extra) (1 / 2) (5 / 4)
          = some m') ∧
      ((0 : ℚ) ≤ 5 / 4 → (m'.getResults.length : ℤ) ≤ ⌊(5 / 4 : ℚ) / (1 / 2)⌋ + 1) ∧
      ((5 / 4 : ℚ) < 0 → m'.getResults.length = 0) :=
  ⟨by norm_num,
    (simulate_terminates_with_bounded_count (1 / 2) (5 / 4) (by norm_num)).1
      FallingBodyWithDrag.new⟩


/-! ## Overshoot of the requested duration -/

/-- The loop `while (time <= T)` without `break`, started at time 0 with no
records, `dt > 0` and `T ≥ 0`, with a body that adds `dt` to `time` and pushes a
record stamped `time + c * dt`: it exits with `⌊T / dt⌋ + 1` records, record `i`
being stamped `(i + c) * dt`. -/
theorem timeLoop_stamps (body : LoopState → LoopState) (dt T c : ℚ) (hdt : 0 < dt)
    (hT : 0 ≤ T)
    (hbody : ∀ s : LoopState, ∃ r : SimulationResult,
      (body s).results = s.results ++ [r] ∧ r.time = s.time + c * dt ∧
        (body s).time = s.time + dt)
    (s : LoopState) (hs : s.time = 0) (hs' : s.results = []) :
    ∃ s' : LoopState,
      (∀ extra : Nat,
        whileLoop (timeCond T) body noBreak (⌊T / dt⌋₊ + 2 + extra) s = some s') ∧
      s'.results.length = ⌊T / dt⌋₊ + 1 ∧
      ∀ (i : Nat) (h : i < s'.results.length), (s'.results[i]).time = (i + c) * dt := by
  obtain ⟨s', hrun, hlen⟩ := timeLoop_record_count body dt T hdt
    (fun t => (hbody t).choose_spec.2.2)
    (fun t => by rw [(hbody t).choose_spec.1, List.length_append, List.length_singleton])
    s hs hs'
  rw [if_pos hT] at hlen
  have hinv := whileLoop_invariant (timeCond T) body noBreak _
    (fun t ht _ => times_invariant body dt c hbody t ht) _ s s'
    (by
      refine ⟨by rw [hs, hs']; simp, fun i h => ?_⟩
      rw [hs'] at h
      exact absurd h (Nat.not_lt_zero i)) (hrun 0)
  exact ⟨s', hrun, hlen, hinv.2⟩

/-- A multiple `j * dt` with `j ≤ ⌊T / dt⌋` does not exceed `T`. -/
theorem stamp_le_of_lt_floor (dt T : ℚ) (hdt : 0 < dt) (hT : 0 ≤ T) (j : Nat)
    (hj : j ≤ ⌊T / dt⌋₊) : (j : ℚ) * dt ≤ T := by
  have h1 : (j : ℚ) ≤ ⌊T / dt⌋₊ := by exact_mod_cast hj
  have h2 : (⌊T / dt⌋₊ : ℚ) ≤ T / dt := Nat.floor_le (div_nonneg hT hdt.le)
  exact (le_div_iff₀ hdt).mp (h1.trans h2)

/-- The multiple `(⌊T / dt⌋ + 1) * dt` exceeds `T`. -/
theorem stamp_gt_floor_succ (dt T : ℚ) (hdt : 0 < dt) :
    T < ((⌊T / dt⌋₊ : ℚ) + 1) * dt :=
  (div_lt_iff₀ hdt).mp (Nat.lt_floor_add_one _)

/-- A sequence of `⌊T / dt⌋ + 1` records stamped `dt, 2 * dt, ...` stays within
`T` except for its last record, which is beyond `T`. -/
theorem overshoot_of_stamps (l : List SimulationResult) (dt T : ℚ) (hdt : 0 < dt)
    (hT : 0 ≤ T) (hlen : l.length = ⌊T / dt⌋₊ + 1)
    (hst : ∀ (i : Nat) (h : i < l.length), (l[i]).time = (i + 1) * dt) :
    (∀ (i : Nat) (h : i + 1 < l.length), (l[i]).time ≤ T) ∧
    ∃ last : SimulationResult, l.getLast? = some last ∧ T < last.time := by
  refine ⟨fun i h => ?_, ?_⟩
  · rw [hst i (by omega)]
    have := stamp_le_of_lt_floor dt T hdt hT (i + 1) (by omega)
    push_cast at this
    exact this
  · have hlast : ⌊T / dt⌋₊ < l.length := by omega
    refine ⟨l[⌊T / dt⌋₊], ?_, ?_⟩
    · rw [List.getLast?_eq_getElem?, hlen, Nat.add_sub_cancel, List.getElem?_eq_getElem hlast]
    · rw [hst _ hlast]
      exact stamp_gt_floor_succ dt T hdt

/-- C21: for SpringOscillator and ChargeInField with any parameters,
`timeStep > 0` and `totalTime ≥ 0`, `simulate` returns and its result sequence
overshoots the requested duration: every record except the last has
time ≤ `totalTime`, and there is a last record, whose time is strictly greater
than `totalTime` (the time is advanced before the record is stored).  For
ConstantAcceleration the result sequence is non-empty and every record has
time ≤ `totalTime`. -/
theorem simulate_overshoots_total_time (timeStep totalTime : ℚ) (hdt : 0 < timeStep) (hT : 0 ≤ totalTime) :
    (∀ m : SpringOscillator, ∃ m' : SpringOscillator,
      (∀ extra : Nat,
        m.simulate (⌊totalTime / timeStep⌋₊ + 2 + extra) timeStep totalTime = some m') ∧
      (∀ (i : Nat) (h : i + 1 < m'.getResults.length),
        (m'.getResults[i]).time ≤ totalTime) ∧
      ∃ last : SimulationResult,
        m'.getResults.getLast? = some last ∧ totalTime < last.time) ∧
    (∀ m : ChargeInField, ∃ m' : ChargeInField,
      (∀ extra : Nat,
        m.simulate (⌊totalTime / timeStep⌋₊ + 2 + extra) timeStep totalTime = some m') ∧
      (∀ (i : Nat) (h : i + 1 < m'.getResults.length),
        (m'.getResults[i]).time ≤ totalTime) ∧
      ∃ last : SimulationResult,
        m'.getResults.getLast? = some last ∧ totalTime < last.time) ∧
    (∀ m : ConstantAcceleration, ∃ m' : ConstantAcceleration,
      (∀ extra : Nat,
        m.simulate (⌊totalTime / timeStep⌋₊ + 2 + extra) timeStep totalTime = some m') ∧
      m'.getResults ≠ [] ∧
      ∀ (i : Nat) (h : i < m'.getResults.length), (m'.getResults[i]).time ≤ totalTime) := by
  refine ⟨fun m => ?_, fun m => ?_, fun m => ?_⟩
  · obtain ⟨s', hrun, hlen, hst⟩ := timeLoop_stamps
      (SpringOscillator.loopBody m.clearResults timeStep) timeStep totalTime 1 hdt hT
      (fun s => ⟨_, rfl, by simp [SpringOscillator.loopBody], rfl⟩)
      { time := 0.0, position := m.clearResults.amplitude, velocity := 0.0,
        results := m.clearResults.results } (by norm_num) rfl
    refine ⟨{ m.clearResults with results := s'.results }, fun extra => ?_,
      overshoot_of_stamps s'.results timeStep totalTime hdt hT hlen hst⟩
    simp only [SpringOscillator.simulate, hrun extra, Option.map_some']
  · obtain ⟨s', hrun, hlen, hst⟩ := timeLoop_stamps
      (ChargeInField.loopBody m.clearResults timeStep) timeStep totalTime 1 hdt hT
      (fun s => ⟨_, rfl, by simp [ChargeInField.loopBody], rfl⟩)
      { time := 0.0, position := 0.0, velocity := m.clearResults.initialVel,
        results := m.clearResults.results } (by norm_num) rfl
    refine ⟨{ m.clearResults with results := s'.results }, fun extra => ?_,
      overshoot_of_stamps s'.results timeStep totalTime hdt hT hlen hst⟩
    simp only [ChargeInField.simulate, hrun extra, Option.map_some']
  · obtain ⟨s', hrun, hlen, hst⟩ := timeLoop_stamps
      (ConstantAcceleration.loopBody m.clearResults timeStep) timeStep totalTime 0 hdt hT
      (fun s => ⟨_, rfl, by simp [ConstantAcceleration.loopBody], rfl⟩)
      { time := 0.0, position := 0, velocity := 0,
        results := m.clearResults.results } (by norm_num) rfl
    refine ⟨{ m.clearResults with results := s'.results }, fun extra => ?_, ?_, fun i h => ?_⟩
    · simp only [ConstantAcceleration.simulate, hrun extra, Option.map_some']
    · intro hnil
      have hnil' : s'.results = [] := hnil
      rw [hnil'] at hlen
      simp at hlen
    · have h' : i < s'.results.length := h
      have := hst i h'
      simp only [add_zero] at this
      show (s'.results[i]).time ≤ totalTime
      rw [this]
      exact stamp_le_of_lt_floor timeStep totalTime hdt hT i (by omega)

/-- Witness for C21: the default SpringOscillator with step 1/2 up to time 5/4;
the records are at times 1/2, 1 and 3/2. -/
theorem simulate_overshoots_total_time_witness :
    (0 : ℚ) < 1 / 2 ∧ (0 : ℚ) ≤ 5 / 4 ∧
    ∃ m' : SpringOscillator,
      (∀ extra : Nat,
        SpringOscillator.new.simulate (⌊(5 / 4 : ℚ) / (1 / 2)⌋₊ + 2 + extra) (1 / 2) (5 / 4)
          = some m') ∧
      (∀ (i : Nat) (h : i + 1 < m'.getResults.length),
        (m'.getResults[i]).time ≤ 5 / 4) ∧
      ∃ last : SimulationResult,
        m'.getResults.getLast? = some last ∧ (5 / 4 : ℚ) < last.time :=
  ⟨by norm_num, by norm_num,
    (simulate_overshoots_total_time (1 / 2) (5 / 4) (by norm_num) (by norm_num)).1
      SpringOscillator.new⟩


/-! ## FallingBodyWithDrag: the impact step is recorded -/

/-- Exit state of `FallingBodyWithDrag::simulate`: the records form a chain for
any relation `R` that each step satisfies, and the state after the last record
(`init` when there is none) is not one from which the loop goes on, that is, it
does not have `time ≤ T` together with `position > 0`. -/
theorem fallingBody_exit_state (m : FallingBodyWithDrag) (dt T : ℚ) (fuel : Nat)
    (R : SimulationResult → SimulationResult → Prop) (init : SimulationResult)
    (hinit : init.time = 0 ∧ init.position = m.height ∧ init.velocity = 0)
    (hR : ∀ (s : LoopState) (p : SimulationResult),
      p.time = s.time → p.position = s.position → p.velocity = s.velocity →
      R p ⟨(FallingBodyWithDrag.loopBody m dt s).time,
        (FallingBodyWithDrag.loopBody m dt s).position,
        (FallingBodyWithDrag.loopBody m dt s).velocity,
        m.gravity - 0.5 * m.dragCoeff * s.velocity * s.velocity / m.mass⟩)
    (m' : FallingBodyWithDrag) (h : m.simulate fuel dt T = some m') :
    List.Chain R init m'.results ∧
      ¬ ((m'.results.getLastD init).time ≤ T ∧ 0 < (m'.results.getLastD init).position) := by
  simp only [FallingBodyWithDrag.simulate, Option.map_eq_some'] at h
  obtain ⟨s', hs', rfl⟩ := h
  have h0 : (0.0 : ℚ) = 0 := by norm_num
  have hstep : ∀ s : LoopState,
      (List.Chain R init s.results ∧
        (s.results.getLastD init).time = s.time ∧
        (s.results.getLastD init).position = s.position ∧
        (s.results.getLastD init).velocity = s.velocity) →
      (List.Chain R init (FallingBodyWithDrag.loopBody m.clearResults dt s).results ∧
        ((FallingBodyWithDrag.loopBody m.clearResults dt s).results.getLastD init).time
          = (FallingBodyWithDrag.loopBody m.clearResults dt s).time ∧
        ((FallingBodyWithDrag.loopBody m.clearResults dt s).results.getLastD init).position
          = (FallingBodyWithDrag.loopBody m.clearResults dt s).position ∧
        ((FallingBodyWithDrag.loopBody m.clearResults dt s).results.getLastD init).velocity
          = (FallingBodyWithDrag.loopBody m.clearResults dt s).velocity) :=
    fun s hs => trajectory_invariant R init (FallingBodyWithDrag.loopBody m.clearResults dt)
      (fun s p ht hx hv => ⟨_, rfl, hR s p ht hx hv, rfl, rfl, rfl⟩) s hs
  have hstart : List.Chain R init ([] : List SimulationResult) ∧
      (([] : List SimulationResult).getLastD init).time = (0.0 : ℚ) ∧
      (([] : List SimulationResult).getLastD init).position = m.height ∧
      (([] : List SimulationResult).getLastD init).velocity = (0.0 : ℚ) := by
    refine ⟨List.Chain.nil, ?_, ?_, ?_⟩ <;> simp only [List.getLastD_nil, h0]
    · exact hinit.1
    · exact hinit.2.1
    · exact hinit.2.2
  rcases whileLoop_exit (FallingBodyWithDrag.loopCond T)
      (FallingBodyWithDrag.loopBody m.clearResults dt) FallingBodyWithDrag.loopBreak
      (fun s : LoopState => List.Chain R init s.results ∧
        (s.results.getLastD init).time = s.time ∧
        (s.results.getLastD init).position = s.position ∧
        (s.results.getLastD init).velocity = s.velocity)
      (fun s hs _ => hstep s hs) fuel _ s' hstart hs' with
    ⟨hc, rfl⟩ | ⟨t, ht, _, rfl, hexit⟩
  · refine ⟨List.Chain.nil, ?_⟩
    show ¬ ((([] : List SimulationResult).getLastD init).time ≤ T ∧
      0 < (([] : List SimulationResult).getLastD init).position)
    simp only [FallingBodyWithDrag.loopCond, FallingBodyWithDrag.clearResults, h0,
      Bool.and_eq_false_imp, decide_eq_true_eq, decide_eq_false_iff_not, not_le] at hc
    rw [List.getLastD_nil, hinit.1, hinit.2.1]
    rintro ⟨hT, hpos⟩
    exact absurd (hc hT) (not_lt.mpr hpos.le)
  · obtain ⟨hchain, hlt, hlx, _⟩ := hstep t ht
    refine ⟨hchain, ?_⟩
    show ¬ (((FallingBodyWithDrag.loopBody m.clearResults dt t).results.getLastD init).time ≤ T ∧
      0 < ((FallingBodyWithDrag.loopBody m.clearResults dt t).results.getLastD init).position)
    rw [hlt, hlx]
    rintro ⟨hT, hpos⟩
    rcases hexit with hb | hc
    · simp only [FallingBodyWithDrag.loopBreak, h0, decide_eq_true_eq] at hb
      exact absurd hb (not_le.mpr hpos)
    · simp only [FallingBodyWithDrag.loopCond, h0, Bool.and_eq_false_imp, decide_eq_true_eq,
        decide_eq_false_iff_not, not_le] at hc
      exact absurd (hc hT) (not_lt.mpr hpos.le)

/-- C9: for FallingBodyWithDrag with any parameters, `timeStep` and `totalTime`
for which `simulate` returns, every record of the result sequence except the last
has position > 0, and a record with position ≤ 0 is the final record, so that no
record follows it.  The step that brings the position to ≤ 0 is recorded: the
run does not end in a state from which a step is due, in that the last record
(the initial state at time 0 and position `height` when there is no record) does
not have time ≤ `totalTime` together with position > 0; and when mass ≠ 0 each
record is the step computed from the state before it, so that the last record of
a run that ends within `totalTime` is the step that reached the ground. -/
theorem fallingBody_ground_record_is_last (m : FallingBodyWithDrag)
    (timeStep totalTime : ℚ) (fuel : Nat) (m' : FallingBodyWithDrag)
    (h : m.simulate fuel timeStep totalTime = some m') :
    (∀ (i : Nat) (hi : i + 1 < m'.getResults.length), 0 < (m'.getResults[i]).position) ∧
    (∀ (i : Nat) (hi : i < m'.getResults.length),
      (m'.getResults[i]).position ≤ 0 → i + 1 = m'.getResults.length) ∧
    ¬ ((m'.getResults.getLastD
          { time := 0, position := m.height, velocity := 0, other_param := 0 }).time
          ≤ totalTime ∧
        0 < (m'.getResults.getLastD
          { time := 0, position := m.height, velocity := 0, other_param := 0 }).position) ∧
    (m.mass ≠ 0 →
      List.Chain
        (fun before record : SimulationResult =>
          record.other_param
              = m.gravity - (0.5 * m.dragCoeff * before.velocity ^ 2) / m.mass ∧
            record.velocity = before.velocity + record.other_param * timeStep ∧
            record.position = before.position - record.velocity * timeStep ∧
            record.time = before.time + timeStep)
        { time := 0, position := m.height, velocity := 0, other_param := 0 }
        m'.getResults) := by
  have key : ∀ (i : Nat) (hi : i + 1 < m'.getResults.length),
      0 < (m'.getResults[i]).position := by
    intro i hi
    simp only [FallingBodyWithDrag.simulate, Option.map_eq_some'] at h
    obtain ⟨s', hs', rfl⟩ := h
    have hinv := fallingBody_loop_positions m.clearResults timeStep totalTime fuel _ s'
      (by simp [FallingBodyWithDrag.clearResults]) hs'
    simp only [FallingBodyWithDrag.getResults] at hi ⊢
    have hi' : i < s'.results.dropLast.length := by
      rw [List.length_dropLast]; omega
    have := hinv _ (List.getElem_mem hi')
    rwa [List.getElem_dropLast] at this
  have hexit := fallingBody_exit_state m timeStep totalTime fuel
    (fun before record : SimulationResult =>
      record.other_param
          = m.gravity - (0.5 * m.dragCoeff * before.velocity ^ 2) / m.mass ∧
        record.velocity = before.velocity + record.other_param * timeStep ∧
        record.position = before.position - record.velocity * timeStep ∧
        record.time = before.time + timeStep)
    { time := 0, position := m.height, velocity := 0, other_param := 0 }
    ⟨rfl, rfl, rfl⟩
    (fun s p ht hx hv => by
      refine ⟨?_, ?_, ?_, ?_⟩ <;>
        simp only [FallingBodyWithDrag.loopBody, ht, hx, hv]
      ring)
    m' h
  refine ⟨key, fun i hi hpos => ?_, hexit.2, fun _ => hexit.1⟩
  by_contra hne
  have hlt : i + 1 < m'.getResults.length := by omega
  exact absurd (key i hlt) (not_lt.mpr hpos)

/-- Witness for C9: mass 1, gravity 1, no drag, height 2, step 1 up to time 10;
the body is at height 1 after the first step and below the ground after the
second, and that second record is the last. -/
theorem fallingBody_ground_record_is_last_witness :
    FallingBodyWithDrag.simulate 5 ⟨1, 1, 0, 2, []⟩ 1 10
        = some ⟨1, 1, 0, 2, [⟨1, 1, 1, 1⟩, ⟨2, -1, 2, 1⟩]⟩ ∧
    (∀ (i : Nat)
        (hi : i + 1 < (FallingBodyWithDrag.getResults
          ⟨1, 1, 0, 2, [⟨1, 1, 1, 1⟩, ⟨2, -1, 2, 1⟩]⟩).length),
        0 < ((FallingBodyWithDrag.getResults
          ⟨1, 1, 0, 2, [⟨1, 1, 1, 1⟩, ⟨2, -1, 2, 1⟩]⟩)[i]).position) ∧
    (∀ (i : Nat)
        (hi : i < (FallingBodyWithDrag.getResults
          ⟨1, 1, 0, 2, [⟨1, 1, 1, 1⟩, ⟨2, -1, 2, 1⟩]⟩).length),
        ((FallingBodyWithDrag.getResults
          ⟨1, 1, 0, 2, [⟨1, 1, 1, 1⟩, ⟨2, -1, 2, 1⟩]⟩)[i]).position ≤ 0 →
        i + 1 = (FallingBodyWithDrag.getResults
          ⟨1, 1, 0, 2, [⟨1, 1, 1, 1⟩, ⟨2, -1, 2, 1⟩]⟩).length) ∧
    ¬ (((FallingBodyWithDrag.getResults
          ⟨1, 1, 0, 2, [⟨1, 1, 1, 1⟩, ⟨2, -1, 2, 1⟩]⟩).getLastD
          { time := 0, position := 2, velocity := 0, other_param := 0 }).time ≤ 10 ∧
        0 < ((FallingBodyWithDrag.getResults
          ⟨1, 1, 0, 2, [⟨1, 1, 1, 1⟩, ⟨2, -1, 2, 1⟩]⟩).getLastD
          { time := 0, position := 2, velocity := 0, other_param := 0 }).position) ∧
    ((1 : ℚ) ≠ 0 →
      List.Chain
        (fun before record : SimulationResult =>
          record.other_param = 1 - (0.5 * 0 * before.velocity ^ 2) / 1 ∧
            record.velocity = before.velocity + record.other_param * 1 ∧
            record.position = before.position - record.velocity * 1 ∧
            record.time = before.time + 1)
        { time := 0, position := 2, velocity := 0, other_param := 0 }
        (FallingBodyWithDrag.getResults ⟨1, 1, 0, 2, [⟨1, 1, 1, 1⟩, ⟨2, -1, 2, 1⟩]⟩)) :=
  ⟨by decide!,
    fallingBody_ground_record_is_last ⟨1, 1, 0, 2, []⟩ 1 10 5
      ⟨1, 1, 0, 2, [⟨1, 1, 1, 1⟩, ⟨2, -1, 2, 1⟩]⟩ (by decide!)⟩

end Simulation
